import Mathlib

/-!
# Verification of the listenhacks multi-track recorder/looper engine

A shallow embedding, in Lean 4, of the audio engine of the `listenhacks`
repository: the clip/track registry with its non-overlap assignment
(`getTrackForTimeRange`, `assignClipToNonOverlappingTrack`), the recording
controller (`startRecording`, `finalizeRecording`), the mix buffer builder
(`buildMixedBufferForWindow`, `softClipSample`, `readSampleAtFrame`), the
transport and loop state machine (`createTransport`, `pausePlayback`,
`resumePlayback`, `endLoop`, the `onended` handler), the delay-effect
parameter dispatch (`dispatchAction` cases plus `delayFeedbackMax` and the
re-clamp in `updateEffectsNodes`), and the bypass path of
`processEchoReverbBlock`.

Times, gains and parameters are modelled as exact rationals (`ℚ`); audio
sample values in the mix builder are real numbers (`ℝ`) because the soft
clipper is `Math.tanh`.  JS `Math.round`, `toFixed`, `%` and the `clamp` /
`modulo` helpers from `utils.js` are modelled exactly on rationals.
-/

namespace ListenHacks

/-! # Definitions -/

/-! ## JS numeric primitives (`utils.js` and `Math`) -/

/-- Model of `clamp(value, min, max)` from `utils.js`:
`Math.min(max, Math.max(min, value))`. -/
def clamp (value lo hi : ℚ) : ℚ :=
  min hi (max lo value)

/-- Truncation toward zero, the rounding JS `%` applies to the quotient. -/
def jsTrunc (q : ℚ) : ℤ :=
  if 0 ≤ q then ⌊q⌋ else ⌈q⌉

/-- JS remainder `value % m` on rationals (result carries the sign of the
dividend). -/
def jsRem (value m : ℚ) : ℚ :=
  value - m * (jsTrunc (value / m) : ℚ)

/-- Model of `modulo(value, mod)` from `utils.js`:
`if (mod <= 0) return 0; return ((value % mod) + mod) % mod;`. -/
def modulo (value m : ℚ) : ℚ :=
  if m ≤ 0 then 0 else jsRem (jsRem value m + m) m

/-- JS `Math.round` (round half toward positive infinity). -/
def jsRound (q : ℚ) : ℤ :=
  ⌊q + 1 / 2⌋

/-- JS `Number(x.toFixed(n))` on exact rationals.  ECMA `toFixed` picks the
integer `k` with `k / 10^n` closest to `x`, the larger one on ties. -/
def jsToFixed (n : ℕ) (q : ℚ) : ℚ :=
  (⌊q * 10 ^ n + 1 / 2⌋ : ℚ) / 10 ^ n

/-- A rational that is an integer multiple of `1 / 10^n`. -/
def DecimalMult (n : ℕ) (q : ℚ) : Prop :=
  ∃ k : ℤ, q = (k : ℚ) / 10 ^ n

namespace MixerDelay

/-! ## Delay effect parameter dispatch (`mixer/js/actions.js`, `mixer/js/audio.js`)

The delay-effect state `appState.effects.delay` and the commands that may
mutate it.  `dispatchAction` clamps the requested feedback to
`getDelayFeedbackMax` and then calls `audio.updateEffectsNodes`, which —
whenever the audio graph has been created (`appState.audio.context` non-null,
modelled by `ctxReady`) — re-clamps the stored feedback to the current
ceiling (`audio.js`: `delay.feedback = clamp(delay.feedback, 0, maxFeedback)`). -/

structure DelayState where
  enabled : Bool
  delaySeconds : ℚ
  feedback : ℚ
  wet : ℚ
  advancedClamp : Bool
  deriving DecidableEq

/-- Model of `delayFeedbackMax` (`mixer/js/audio.js` lines 32-34):
`delayState?.advancedClamp ? 0.75 : 0.65`. -/
def delayFeedbackMax (delayState : DelayState) : ℚ :=
  if delayState.advancedClamp then 3 / 4 else 13 / 20

/-- The delay-parameter portion of `updateEffectsNodes` (`mixer/js/audio.js`
lines 333-349).  When the audio graph exists it re-clamps the stored feedback
to the current ceiling; before `ensureContext` has run the function returns
immediately (`if (!appState.audio.context || ...) return`). -/
def updateEffectsNodesDelay (ctxReady : Bool) (d : DelayState) : DelayState :=
  if ctxReady then { d with feedback := clamp d.feedback 0 (delayFeedbackMax d) } else d

/-- The delay-related command vocabulary accepted by `dispatchAction`
(`mixer/js/actions.js`).  Payload numbers are the already-parsed
`numericPayloadValue` results. -/
inductive DelayCmd
  | setEnabled (enabled : Bool)
  | setTime (value : ℚ)
  | setFeedback (value : ℚ)
  | setWet (value : ℚ)
  | setAdvancedClamp (enabled : Bool)
  deriving DecidableEq

/-- The delay-effect state transitions of `dispatchAction`
(`mixer/js/actions.js` lines 207-244), each followed by the
`audio.updateEffectsNodes(appState)` call the handler makes. -/
def dispatchDelayAction (ctxReady : Bool) (d : DelayState) : DelayCmd → DelayState
  | .setEnabled e => updateEffectsNodesDelay ctxReady { d with enabled := e }
  | .setTime v => updateEffectsNodesDelay ctxReady { d with delaySeconds := clamp v (1/20) (6/5) }
  | .setFeedback v =>
      updateEffectsNodesDelay ctxReady
        { d with feedback := clamp (v / 100) 0 (delayFeedbackMax d) }
  | .setWet v => updateEffectsNodesDelay ctxReady { d with wet := clamp (v / 100) 0 1 }
  | .setAdvancedClamp e => updateEffectsNodesDelay ctxReady { d with advancedClamp := e }

/-- A sequence of delay commands dispatched in order. -/
def runDelayActions (ctxReady : Bool) (d : DelayState) (cmds : List DelayCmd) : DelayState :=
  cmds.foldl (dispatchDelayAction ctxReady) d

/-- An arbitrary concrete starting snapshot of the delay parameters.  The
initial literal for `effects.delay` is not among the sources (the `state.js`
under `src/` predates the delay effect); none of the delay claims depend on
it — it only anchors closed counterexample/witness states. -/
def initialDelayState : DelayState :=
  { enabled := false, delaySeconds := 3/10, feedback := 9/20, wet := 7/20,
    advancedClamp := false }

end MixerDelay

namespace FX

/-! ## Echo/reverb block, bypass path (`mixer/js/effects-engine.js`)

The disabled path of `processEchoReverbBlock`: each output sample is
`clamp((input && Number.isFinite(input[i]) ? input[i] : 0) || 0, -1, 1)`
where `input = inputChannels[Math.min(ch, inputChannels.length - 1)]`.
A Float32Array slot is modelled as `Option ℚ`: `some v` is a finite sample,
`none` a missing (out-of-range) or non-finite entry.  The filter state is
neither read nor reflected in the output on this path (only the circular
indices advance), so the bypass output is a pure function of the input. -/

/-- The value the guard `(input && Number.isFinite(input[i]) ? input[i] : 0) || 0`
produces: a finite sample passes through, anything else becomes `0`. -/
def sampleOr0 : Option ℚ → ℚ
  | some v => v
  | none => 0

/-- The per-sample input conditioning of `processEchoReverbBlock`
(`effects-engine.js` lines 100-103): channel duplication via
`Math.min(ch, inputChannels.length - 1)`, then the finite-or-zero guard,
then `clamp(·, -1, 1)`. -/
def echoReverbInput (inputChannels : List (List (Option ℚ))) (ch i : ℕ) : ℚ :=
  let input := inputChannels.getD (min ch (inputChannels.length - 1)) []
  clamp (sampleOr0 (input.getD i none)) (-1) 1

/-- The output block of `processEchoReverbBlock` with `enabled = false`
(`effects-engine.js` lines 105-108): `outputChannels[ch][i] = x; continue;`
for every frame `i < frameCount` and channel `ch < channelCount`. -/
def processEchoReverbBlockBypass (inputChannels : List (List (Option ℚ)))
    (channelCount frameCount : ℕ) : List (List ℚ) :=
  (List.range channelCount).map fun ch =>
    (List.range frameCount).map fun i => echoReverbInput inputChannels ch i

end FX

/-! ## Mix buffer builder (`part_004` lines 507-614)

`buildMixedBufferForWindow`, `softClipSample`, `readSampleAtFrame`,
`getReadyClipsWithTime` and `intervalsOverlap`, embedded over exact rational
times and real-valued samples (the soft clipper is `Math.tanh`).
Accumulator arrays (`Float32Array(mixBuffer.length)`) are modelled as total
functions `channel → frame → ℝ` initialised to `0`; `copyToChannel` makes
the final accumulators the output buffer's channel data. -/

/-- Model of `intervalsOverlap` (`part_004` lines 382-384):
`startA < endB && endA > startB`. -/
def intervalsOverlap (startA endA startB endB : ℚ) : Bool :=
  decide (startA < endB ∧ endA > startB)

namespace Mix

noncomputable section

/-- A decoded `AudioBuffer`: sample rate, channel count, frame count
(`.length`) and per-channel sample data (`getChannelData`). -/
structure SourceBuffer where
  sampleRate : ℚ
  numberOfChannels : ℕ
  length : ℕ
  data : List (List ℝ)

/-- `AudioBuffer.getChannelData(c)`. -/
def SourceBuffer.getChannelData (b : SourceBuffer) (c : ℕ) : List ℝ :=
  b.data.getD c []

inductive ClipStatus
  | recording
  | ready
  deriving DecidableEq

/-- The clip fields the mix builder reads.  `none` in a time field models a
`null` (or non-finite) value. -/
structure MixClip where
  status : ClipStatus
  buffer : Option SourceBuffer
  startTimeSec : Option ℚ
  endTimeSec : Option ℚ

/-- A clip that passed the `getReadyClipsWithTime` filter: `ready`, with a
buffer and finite times satisfying `endTimeSec > startTimeSec`. -/
structure ReadyClipView where
  startTimeSec : ℚ
  endTimeSec : ℚ
  buffer : SourceBuffer

/-- Model of `getReadyClipsWithTime` (`part_004` lines 528-536). -/
def getReadyClipsWithTime (clips : List MixClip) : List ReadyClipView :=
  clips.filterMap fun clip =>
    match clip.status, clip.buffer, clip.startTimeSec, clip.endTimeSec with
    | .ready, some b, some s, some e => if s < e then some ⟨s, e, b⟩ else none
    | _, _, _, _ => none

/-- `SOFT_CLIP_GAIN = 1.15` (`part_004` line 366). -/
def SOFT_CLIP_GAIN : ℝ := 23 / 20

/-- `LOOP_MIX_CHANNELS = 2` (`part_004` line 365). -/
def LOOP_MIX_CHANNELS : ℕ := 2

/-- Model of `softClipSample` (`part_004` lines 507-509):
`Math.tanh(value * SOFT_CLIP_GAIN)`. -/
def softClipSample (value : ℝ) : ℝ :=
  Real.tanh (value * SOFT_CLIP_GAIN)

/-- Model of `readSampleAtFrame` (`part_004` lines 511-526): linear
interpolation at a fractional frame index, clamped into the data range. -/
def readSampleAtFrame (channelData : List ℝ) (frameIndex : ℚ) : ℝ :=
  if channelData.length = 0 then 0
  else
    let maxIndex : ℕ := channelData.length - 1
    let clampedIndex : ℚ := clamp frameIndex 0 (maxIndex : ℚ)
    let lower : ℕ := (⌊clampedIndex⌋).toNat
    let upper : ℕ := min maxIndex (lower + 1)
    if lower = upper then channelData.getD lower 0
    else
      let mixv : ℚ := clampedIndex - (lower : ℚ)
      channelData.getD lower 0 * (1 - (mixv : ℝ)) + channelData.getD upper 0 * (mixv : ℝ)

/-- One iteration of the per-frame channel loop (`part_004` lines 596-603):
both output channels accumulate the (channel-duplicated) source sample and
the result is soft-clipped in place. -/
def accumulateFrame (sourceBuffer : SourceBuffer) (destinationFrame : ℕ) (sourceFrame : ℚ)
    (acc : ℕ → ℕ → ℝ) : ℕ → ℕ → ℝ :=
  fun channel f =>
    if channel < LOOP_MIX_CHANNELS ∧ f = destinationFrame then
      softClipSample (acc channel f +
        readSampleAtFrame
          (sourceBuffer.getChannelData (min channel (sourceBuffer.numberOfChannels - 1)))
          sourceFrame)
    else acc channel f

/-- The frame loop of `buildMixedBufferForWindow` (`part_004` lines 590-605):
steps `sourceFrame` by `sourceFrameIncrement`, breaking once it exceeds
`sourceFrameLimit`. -/
def mixFrames (sourceBuffer : SourceBuffer) (sourceFrameIncrement sourceFrameLimit : ℚ) :
    ℕ → ℕ → ℚ → (ℕ → ℕ → ℝ) → (ℕ → ℕ → ℝ)
  | 0, _, _, acc => acc
  | count + 1, destinationFrame, sourceFrame, acc =>
      if sourceFrameLimit < sourceFrame then acc
      else
        mixFrames sourceBuffer sourceFrameIncrement sourceFrameLimit count
          (destinationFrame + 1) (sourceFrame + sourceFrameIncrement)
          (accumulateFrame sourceBuffer destinationFrame sourceFrame acc)

/-- The per-clip body of the mix loop (`part_004` lines 564-606): overlap
sub-range, destination frame mapping, and the resampling frame loop. -/
def mixClipInto (ctxSampleRate : ℚ) (bufferFrames : ℕ) (mixStart mixEnd : ℚ)
    (acc : ℕ → ℕ → ℝ) (clip : ReadyClipView) : ℕ → ℕ → ℝ :=
  let clipStart := clip.startTimeSec
  let clipEnd := clip.endTimeSec
  let overlapStart := max mixStart clipStart
  let overlapEnd := min mixEnd clipEnd
  if overlapEnd ≤ overlapStart then acc
  else
    let overlapLength := overlapEnd - overlapStart
    let sourceBuffer := clip.buffer
    let overlapSourceStartSec := overlapStart - clipStart
    let destStartSec := overlapStart - mixStart
    let destStartFrame : ℤ := max 0 ⌊destStartSec * ctxSampleRate⌋
    let destFrames : ℤ := min ⌊overlapLength * ctxSampleRate⌋ ((bufferFrames : ℤ) - destStartFrame)
    if destFrames ≤ 0 ∨ sourceBuffer.length = 0 then acc
    else
      let sourceFrameIncrement := sourceBuffer.sampleRate / ctxSampleRate
      let sourceFrame := overlapSourceStartSec * sourceBuffer.sampleRate
      let sourceFrameLimit :=
        min ((sourceBuffer.length : ℚ) - 1) (sourceFrame + overlapLength * sourceBuffer.sampleRate)
      mixFrames sourceBuffer sourceFrameIncrement sourceFrameLimit
        destFrames.toNat destStartFrame.toNat sourceFrame acc

/-- The buffer returned by the mix builder: stereo channel data is the final
accumulator pair. -/
structure MixedBuffer where
  numberOfChannels : ℕ
  frames : ℕ
  sampleRate : ℚ
  chan : ℕ → ℕ → ℝ

/-- Model of `buildMixedBufferForWindow` (`part_004` lines 538-614).
`ctxReady` models `appState.audio.context` being non-null; a `none` window
start models `windowStartSec == null`; `providedClips` is the optional
`providedClips` argument (`null` defaults to `getReadyClipsWithTime`). -/
def buildMixedBufferForWindow (ctxReady : Bool) (ctxSampleRate : ℚ) (clips : List MixClip)
    (windowStartSec : Option ℚ) (windowLengthSec : ℚ)
    (providedClips : Option (List ReadyClipView)) : Option MixedBuffer :=
  match ctxReady, windowStartSec with
  | false, _ => none
  | true, none => none
  | true, some wStart =>
      if windowLengthSec ≤ 0 then none
      else
        let mixStart := wStart
        let mixLength := windowLengthSec
        let mixEnd := mixStart + mixLength
        let bufferFrames : ℕ := max 1 (jsRound (mixLength * ctxSampleRate)).toNat
        if mixLength = 0 then
          some ⟨LOOP_MIX_CHANNELS, bufferFrames, ctxSampleRate, fun _ _ => 0⟩
        else
          let readyClips := providedClips.getD (getReadyClipsWithTime clips)
          let overlappingClips := readyClips.filter fun clip =>
            intervalsOverlap mixStart mixEnd clip.startTimeSec clip.endTimeSec
          let accumulators :=
            overlappingClips.foldl (mixClipInto ctxSampleRate bufferFrames mixStart mixEnd)
              (fun _ _ => 0)
          some ⟨LOOP_MIX_CHANNELS, bufferFrames, ctxSampleRate, accumulators⟩

/-! ### Bounds: every accumulator value stays in `[-1, 1]` -/

/-- All accumulator slots lie in `[-1, 1]`. -/
def Bounded (acc : ℕ → ℕ → ℝ) : Prop :=
  ∀ ch f, |acc ch f| ≤ 1

/-! ### A one-frame window over unit-length clips, used to exhibit the exact
order in which the soft clipper is applied -/

/-- A mono 48 kHz source buffer whose first sample is `x` (second sample `0`). -/
def sampleBuffer (x : ℝ) : SourceBuffer :=
  ⟨48000, 1, 2, [[x, 0]]⟩

/-- A ready clip spanning `[0, 1)` whose decoded audio is `sampleBuffer x`. -/
def sampleClip (x : ℝ) : MixClip :=
  ⟨.ready, some (sampleBuffer x), some 0, some 1⟩

end

end Mix

namespace Engine

/-! ## Registry, recording controller and transport (`part_004`)

The stateful engine of `part_004` (`audio.js` of the main generation):
clip/track registry with non-overlap assignment, the recording controller,
and the transport / loop state machine.  Times are exact rationals; one
explicit clock parameter `t` (seconds) stands for `performance.now()/1000`
and `audioContext.currentTime` (they differ by constants that cancel in
every difference the code takes).  Audio buffers are represented by their
frame count and sample rate (the transport layer reads only `duration`);
sample contents live in the `Mix` model.  UI-only fields (labels, status
messages, meter data) and the Web Audio node graph are omitted. -/

inductive ClipStatus
  | recording
  | ready
  deriving DecidableEq

/-- A clip record.  `id` models the `clip-${n}` string as its number,
`hasBuffer` models `clip.buffer` being non-null.  `startTimeSec` is set at
creation and never null (the `?? 0` / `== null` guards in the source are
unreachable), so it is a plain rational. -/
structure Clip where
  id : ℕ
  trackId : ℕ
  startTimeSec : ℚ
  endTimeSec : Option ℚ
  duration : ℚ
  status : ClipStatus
  hasBuffer : Bool
  lockTrack : Bool
  maxDurationSec : Option ℚ
  deriving DecidableEq

/-- A track lane; the `track-${n}` id string is modelled as the number `n`
(the display name is UI-only). -/
structure Track where
  id : ℕ
  deriving DecidableEq

/-- `appState.playback.manualStopReason` values. -/
inductive StopReason
  | noReason
  | pause
  | manual
  | endLoopStop
  | replace
  | stop
  | stopLoop
  deriving DecidableEq

inductive TransportMode
  | clip
  | session
  | loop
  deriving DecidableEq

/-- The `appState.playback` record.  `sourceActive` models
`playback.source` being non-null. -/
structure Playback where
  sourceActive : Bool
  clipId : Option ℕ
  duration : ℚ
  startOffset : ℚ
  startedAt : ℚ
  playbackRate : ℚ
  loop : Bool
  manualStopReason : StopReason
  transportId : ℕ
  baseStartSec : ℚ
  mode : TransportMode
  preserveLoopingState : Bool
  deriving DecidableEq

/-- An `AudioBuffer` seen from the transport layer: frame count and sample
rate; `duration = length / sampleRate`. -/
structure BufMeta where
  frames : ℕ
  sampleRate : ℚ
  deriving DecidableEq

def BufMeta.duration (b : BufMeta) : ℚ :=
  (b.frames : ℚ) / b.sampleRate

/-- The engine state (`state.js` fields read or written by `part_004`).
`audioContextReady` / `mediaRecorderReady` model `audio.context` and
`mediaRecorder` being non-null; `transportSeq` generates the fresh transport
identity tokens (`Date.now()` plus a random suffix in the source). -/
structure AppState where
  audioContextReady : Bool
  ctxSampleRate : ℚ
  micEnabled : Bool
  mediaRecorderReady : Bool
  sessionStartSec : Option ℚ
  recordingActive : Bool
  recordingClipId : Option ℕ
  recordingStart : ℚ
  isPlaybackPlaying : Bool
  isLooping : Bool
  isPlaybackPaused : Bool
  playbackPausedOffset : ℚ
  activeTransportId : ℕ
  loopRegionStartSec : Option ℚ
  loopRegionLengthSec : ℚ
  loopSelectionStartSec : Option ℚ
  loopMixBuffer : Option BufMeta
  playback : Playback
  playbackPlayheadSec : ℚ
  tracks : List Track
  activeTrackId : ℕ
  clips : List Clip
  selectedClipId : Option ℕ
  nextClipIndex : ℕ
  transportSeq : ℕ
  deriving DecidableEq

/-- `OVERLAP_EPSILON = 0.0005` (`part_004` line 364). -/
def OVERLAP_EPSILON : ℚ := 1 / 2000

/-- `MIN_LOOP_REGION_SECONDS = 0.05` (`part_004` line 367). -/
def MIN_LOOP_REGION_SECONDS : ℚ := 1 / 20

/-- `STOP_FADE_SECONDS = 0.07` (`part_004` line 363). -/
def STOP_FADE_SECONDS : ℚ := 7 / 100

/-- `nowMs()` for the clock instant `t` (seconds). -/
def nowMsOf (t : ℚ) : ℚ :=
  1000 * t

/-- Model of `nowSessionSec` from `utils.js`. -/
def nowSessionSec (st : AppState) (t : ℚ) : ℚ :=
  match st.sessionStartSec with
  | Option.none => 0
  | some s0 => t - s0

/-- Model of `getClipById` (`state.js`): `find(clip => clip.id === id)`;
a `null` id never matches. -/
def getClipById (st : AppState) (id : Option ℕ) : Option Clip :=
  match id with
  | Option.none => Option.none
  | some i => st.clips.find? fun clip => decide (clip.id = i)

/-- Model of `clipIntervalAtTime` (`part_004` lines 386-406): the effective
interval of a clip, `[start, now)` for a live recording. -/
def clipIntervalAtTime (st : AppState) (clip : Clip) (nowSec : ℚ) : ℚ × ℚ :=
  let start := clip.startTimeSec
  if clip.status = ClipStatus.ready then (start, clip.endTimeSec.getD start)
  else if clip.status = ClipStatus.recording ∧ st.recordingActive then (start, nowSec)
  else (start, clip.endTimeSec.getD start)

/-- Model of `lastReadyClipEndTimeSec` (`part_004` lines 408-415): the end of
the last (insertion order) ready clip with a non-null end. -/
def lastReadyClipEndTimeSec (st : AppState) : Option ℚ :=
  let readyClips := st.clips.filter fun clip =>
    decide (clip.status = ClipStatus.ready) && clip.endTimeSec.isSome
  match readyClips.getLast? with
  | Option.none => Option.none
  | some c => c.endTimeSec

/-- Model of `hasTimeOverlap` (`part_004` lines 417-429). -/
def hasTimeOverlap (st : AppState) (t : ℚ) (trackId : ℕ) (probeStart probeEnd : ℚ)
    (excludeClipId : Option ℕ) : Bool :=
  let nowSec := nowSessionSec st t
  st.clips.any fun clip =>
    if some clip.id = excludeClipId then false
    else if clip.trackId ≠ trackId then false
    else
      let interval := clipIntervalAtTime st clip nowSec
      intervalsOverlap probeStart probeEnd interval.1 interval.2

/-- Model of `getTrackForTimeRange` (`part_004` lines 431-447): first track
(creation order) with no overlapping content, else a freshly appended track.
Mutating `appState.tracks` is modelled by returning the updated state. -/
def getTrackForTimeRange (st : AppState) (t : ℚ) (probeStart probeEnd : ℚ)
    (excludeClipId : Option ℕ) : ℕ × AppState :=
  match st.tracks.find? (fun candidate =>
      !(hasTimeOverlap st t candidate.id probeStart probeEnd excludeClipId)) with
  | some candidate => (candidate.id, st)
  | Option.none =>
      let newTrackId := st.tracks.length + 1
      (newTrackId, { st with tracks := st.tracks ++ [⟨newTrackId⟩] })

/-- Model of `createNewTrack` (`part_004` lines 449-456). -/
def createNewTrack (st : AppState) : ℕ × AppState :=
  let newTrackId := st.tracks.length + 1
  (newTrackId, { st with tracks := st.tracks ++ [⟨newTrackId⟩] })

/-- Model of `assignClipToNonOverlappingTrack` (`part_004` lines 458-471).
The in-place mutation of the aliased clip object is modelled by mapping over
the registry by id. -/
def assignClipToNonOverlappingTrack (st : AppState) (t : ℚ) (clip : Clip) : AppState :=
  match clip.endTimeSec with
  | Option.none => st
  | some e =>
      if clip.status ≠ ClipStatus.ready then st
      else if clip.lockTrack then st
      else
        let res := getTrackForTimeRange st t clip.startTimeSec e (some clip.id)
        let assignedTrackId := res.1
        let st₁ := res.2
        if assignedTrackId ≠ clip.trackId then
          { st₁ with
            clips := st₁.clips.map fun c =>
              if c.id = clip.id then { c with trackId := assignedTrackId } else c,
            activeTrackId := assignedTrackId }
        else st₁

/-- Model of `getTrackForRecordingStart` (`part_004` lines 473-476). -/
def getTrackForRecordingStart (st : AppState) (t : ℚ) (startSec : ℚ) : ℕ × AppState :=
  getTrackForTimeRange st t startSec (startSec + OVERLAP_EPSILON) Option.none

/-- Model of `currentPlaybackOffset` (`part_004` lines 1048-1066). -/
def currentPlaybackOffset (st : AppState) (t : ℚ) : ℚ :=
  if ¬st.playback.sourceActive ∨ ¬st.audioContextReady ∨ st.playback.duration = 0 then
    if st.isPlaybackPaused then st.playbackPausedOffset else st.playback.startOffset
  else if (getClipById st st.playback.clipId).any (fun c => decide (c.duration = 0)) then 0
  else
    let elapsed := (t - st.playback.startedAt) * st.playback.playbackRate
    let rawOffset := st.playback.startOffset + elapsed
    if st.playback.loop then modulo rawOffset st.playback.duration
    else clamp rawOffset 0 st.playback.duration

/-- Model of `loopRecordingStartSec` (`part_004` lines 478-485). -/
def loopRecordingStartSec (st : AppState) (t : ℚ) : Option ℚ :=
  if ¬st.isLooping ∨ ¬st.isPlaybackPlaying ∨ st.loopRegionStartSec = Option.none ∨
      st.loopRegionLengthSec ≤ 0 then
    Option.none
  else some (st.playback.baseStartSec + currentPlaybackOffset st t)

/-- Model of `getRecordingStartSec` (`part_004` lines 493-505). -/
def getRecordingStartSec (st : AppState) (t : ℚ) : ℚ :=
  match loopRecordingStartSec st t with
  | some loopStart => loopStart
  | Option.none =>
      match lastReadyClipEndTimeSec st with
      | Option.none => nowSessionSec st t
      | some lastEnd => lastEnd

/-- Model of `getReadyClipsWithTime` (`part_004` lines 528-536) on registry
clips (`Number.isFinite` holds for every rational; a null time is `none`). -/
def getReadyClipsWithTime (st : AppState) : List Clip :=
  st.clips.filter fun clip =>
    decide (clip.status = ClipStatus.ready) && clip.hasBuffer &&
      (match clip.endTimeSec with
        | some e => decide (clip.startTimeSec < e)
        | Option.none => false)

/-- `Math.min(...)` over a list (call sites guarantee non-emptiness). -/
def minList : List ℚ → ℚ
  | [] => 0
  | x :: xs => xs.foldl min x

/-- `Math.max(...)` over a list (call sites guarantee non-emptiness). -/
def maxList : List ℚ → ℚ
  | [] => 0
  | x :: xs => xs.foldl max x

/-- The frame count of `buildMixedBufferForWindow`'s output buffer
(`Math.max(1, Math.round(mixLength * ctx.sampleRate))`); the transport layer
consumes only the frame count and duration of the built buffer (the sample
contents are the `Mix` model). -/
def mixBufferFramesMeta (ctxSampleRate windowLengthSec : ℚ) : ℕ :=
  max 1 (jsRound (windowLengthSec * ctxSampleRate)).toNat

/-- `buildMixedBufferForWindow` at the metadata level: its guards and the
shape of the returned buffer. -/
def buildMixedBufferMetaForWindow (st : AppState) (windowStartSec : Option ℚ)
    (windowLengthSec : ℚ) : Option BufMeta :=
  if ¬st.audioContextReady ∨ windowStartSec = Option.none ∨ windowLengthSec ≤ 0 then Option.none
  else some ⟨mixBufferFramesMeta st.ctxSampleRate windowLengthSec, st.ctxSampleRate⟩

/-- Model of `buildLoopMixBuffer` (`part_004` lines 616-626). -/
def buildLoopMixBuffer (st : AppState) : Option BufMeta :=
  if ¬st.audioContextReady ∨ st.loopRegionStartSec = Option.none ∨
      st.loopRegionLengthSec ≤ 0 then
    Option.none
  else buildMixedBufferMetaForWindow st st.loopRegionStartSec st.loopRegionLengthSec

/-- Model of `buildSessionPlaybackBuffer` (`part_004` lines 628-656). -/
def buildSessionPlaybackBuffer (st : AppState) : Option (BufMeta × ℚ × ℚ) :=
  if ¬st.audioContextReady then Option.none
  else
    let readyClips := getReadyClipsWithTime st
    match readyClips with
    | [] => Option.none
    | _ :: _ =>
        let sessionStartSec := minList (readyClips.map fun clip => clip.startTimeSec)
        let sessionEndSec := maxList (readyClips.map fun clip =>
          clip.endTimeSec.getD clip.startTimeSec)
        let sessionLengthSec := sessionEndSec - sessionStartSec
        if sessionLengthSec ≤ 0 then Option.none
        else
          match buildMixedBufferMetaForWindow st (some sessionStartSec) sessionLengthSec with
          | Option.none => Option.none
          | some buffer => some (buffer, sessionStartSec, sessionLengthSec)

/-- Model of `getSessionRange` (`part_004` lines 658-671). -/
def getSessionRange (st : AppState) : Option (ℚ × ℚ) :=
  let readyClips := getReadyClipsWithTime st
  match readyClips with
  | [] => Option.none
  | _ :: _ =>
      let sessionStartSec := minList (readyClips.map fun clip => clip.startTimeSec)
      let sessionEndSec := maxList (readyClips.map fun clip =>
        clip.endTimeSec.getD clip.startTimeSec)
      if sessionEndSec ≤ sessionStartSec then Option.none
      else some (sessionStartSec, sessionEndSec)

/-- Model of `getLoopMarkerTimeSec` (`part_004` lines 673-682); the playhead
field is always a finite rational, so the final `return 0` is unreachable. -/
def getLoopMarkerTimeSec (st : AppState) (t : ℚ) : ℚ :=
  if st.isPlaybackPlaying ∨ st.isPlaybackPaused then
    st.playback.baseStartSec + currentPlaybackOffset st t
  else st.playbackPlayheadSec

/-- The options object passed to `createTransport`; every call site in
`part_004` fixes each field (the source defaults are written out at the call
sites that omit them). -/
structure TransportOptions where
  clipId : Option ℕ
  offset : ℚ
  loop : Bool
  loopStart : ℚ
  loopEnd : ℚ
  baseStartSec : ℚ
  mode : TransportMode
  preserveLoopingState : Bool

/-- Model of `createTransport` (`part_004` lines 1090-1197), up to the point
where the source is started: installs the new playback record (with a fresh
transport token), marks playing, and resets pause/looping flags.  The
`onended` closure is the separate `transportOnEnded` transition below;
`updateEffectsNodes` touches only the (unmodelled) distortion nodes. -/
def createTransport (st : AppState) (t : ℚ) (buffer : Option BufMeta)
    (opts : TransportOptions) : AppState × Bool :=
  match buffer with
  | Option.none => (st, false)
  | some buf =>
      if ¬st.audioContextReady ∨ buf.duration = 0 then (st, false)
      else
        let transportId := st.transportSeq + 1
        let safeOffset :=
          if opts.loop then modulo opts.offset buf.duration
          else clamp opts.offset 0 (max 0 (buf.duration - 1 / 1000000))
        let rate : ℚ := 1
        let st₁ := { st with
          playback := {
            sourceActive := true, clipId := opts.clipId, duration := buf.duration,
            startOffset := safeOffset, startedAt := t, playbackRate := rate,
            loop := opts.loop, manualStopReason := StopReason.noReason,
            transportId := transportId, baseStartSec := opts.baseStartSec,
            mode := opts.mode, preserveLoopingState := opts.preserveLoopingState },
          activeTransportId := transportId,
          transportSeq := transportId }
        ({ st₁ with
            isPlaybackPlaying := true,
            isLooping := opts.preserveLoopingState,
            isPlaybackPaused := false,
            playbackPausedOffset := 0,
            playbackPlayheadSec := opts.baseStartSec + safeOffset }, true)

/-- The fade list of `stopTransport` (`part_004` line 1206). -/
def shouldFadeReason (reason : StopReason) : Bool :=
  match reason with
  | .pause | .manual | .endLoopStop | .replace | .stop | .stopLoop => true
  | .noReason => false

/-- Model of `stopTransport` (`part_004` lines 1199-1221): records the stop
reason and schedules the source stop (immediately, or after the ~70 ms fade
when `shouldFadeReason`); the stop completing is the separate
`transportOnEnded` event. -/
def stopTransport (st : AppState) (reason : StopReason) : AppState :=
  if ¬st.playback.sourceActive then st
  else { st with playback := { st.playback with manualStopReason := reason } }

/-- Model of the `onended` closure installed by `createTransport`
(`part_004` lines 1139-1187), fired when the (still current) transport's
source actually stops; stale handlers are dropped by the
`activeTransportId !== transportId` guard, so only the live source's handler
is modelled. -/
def transportOnEnded (st : AppState) (t : ℚ) : AppState :=
  if ¬st.playback.sourceActive then st
  else
    let reason := st.playback.manualStopReason
    let currentClip := getClipById st st.playback.clipId
    let finalOffset := currentPlaybackOffset st t
    let loop := st.playback.loop
    let preserve := st.playback.preserveLoopingState
    let st₁ : AppState := { st with
      playback := { st.playback with
        sourceActive := false
        manualStopReason := StopReason.noReason }
      isPlaybackPlaying := false }
    let st₂ : AppState :=
      if reason = StopReason.pause then
        { st₁ with
          isPlaybackPaused := true
          playbackPausedOffset := finalOffset
          isLooping := preserve }
      else
        { st₁ with isPlaybackPaused := false, playbackPausedOffset := 0, isLooping := false }
    let newPlayheadSec : ℚ :=
      if loop then
        let loopLength : ℚ :=
          if st₂.loopRegionLengthSec ≠ 0 then st₂.loopRegionLengthSec else st₂.playback.duration
        if loopLength ≠ 0 then st₂.playback.baseStartSec + modulo finalOffset loopLength
        else st₂.playback.baseStartSec
      else if st₂.playback.mode = TransportMode.session then
        if reason = StopReason.pause then
          st₂.playback.baseStartSec + clamp finalOffset 0 st₂.playback.duration
        else st₂.playback.baseStartSec + st₂.playback.duration
      else
        match currentClip with
        | some c =>
            if reason = StopReason.pause then c.startTimeSec + clamp finalOffset 0 c.duration
            else c.startTimeSec + c.duration
        | Option.none => st₂.playback.baseStartSec
    { st₂ with playbackPlayheadSec := newPlayheadSec }

/-- Model of `startLoopTransport` (`part_004` lines 880-900). -/
def startLoopTransport (st : AppState) (t : ℚ) (offsetSec : ℚ) : AppState × Bool :=
  match st.loopMixBuffer with
  | Option.none => (st, false)
  | some buf =>
      if st.loopRegionLengthSec ≤ 0 ∨ st.loopRegionStartSec = Option.none then (st, false)
      else
        let loopOffset := modulo offsetSec
          (if st.loopRegionLengthSec ≠ 0 then st.loopRegionLengthSec
            else if buf.duration ≠ 0 then buf.duration else 1)
        createTransport st t (some buf)
          { clipId := Option.none, offset := loopOffset, loop := true, loopStart := 0,
            loopEnd := st.loopRegionLengthSec, baseStartSec := st.loopRegionStartSec.getD 0,
            mode := TransportMode.loop, preserveLoopingState := true }

/-- Model of `refreshLoopTransportIfNeeded` (`part_004` lines 862-878). -/
def refreshLoopTransportIfNeeded (st : AppState) (t : ℚ) (preserveOffset : ℚ) : AppState :=
  if ¬st.isLooping ∨ st.loopRegionLengthSec = 0 then st
  else
    let st₁ := { st with loopMixBuffer := buildLoopMixBuffer st }
    if ¬st₁.isPlaybackPlaying ∨ st₁.loopMixBuffer = Option.none then
      if st₁.isPlaybackPaused then
        let wrapped := modulo preserveOffset
          (if st₁.loopRegionLengthSec ≠ 0 then st₁.loopRegionLengthSec else 1)
        { st₁ with playbackPausedOffset := wrapped }
      else st₁
    else
      let stableOffset := modulo preserveOffset st₁.loopRegionLengthSec
      let st₂ := stopTransport st₁ StopReason.replace
      (startLoopTransport st₂ t stableOffset).1

/-- Model of `startRecording` (`part_004` lines 902-976), successful path:
creates the `recording` clip on its assigned (or dedicated loop) track and
starts capture.  A thrown precondition leaves the state unchanged and
returns `false`; the recorder-exception rollback path is not modelled. -/
def startRecording (st : AppState) (t : ℚ) : AppState × Bool :=
  if ¬st.micEnabled ∨ ¬st.mediaRecorderReady ∨ st.recordingActive then (st, false)
  else if ¬st.audioContextReady then (st, false)
  else
    let st₀ :=
      if st.sessionStartSec = Option.none then { st with sessionStartSec := some t } else st
    let startSec := getRecordingStartSec st₀ t
    let resolvedStart := jsToFixed 3 startSec
    let useDedicatedLoopTrack := (loopRecordingStartSec st₀ t).isSome
    let res := if useDedicatedLoopTrack then createNewTrack st₀
               else getTrackForRecordingStart st₀ t startSec
    let selectedTrackId := res.1
    let st₁ := res.2
    let clipNumber := st₁.nextClipIndex
    let clip : Clip := {
      id := clipNumber, trackId := selectedTrackId, startTimeSec := resolvedStart,
      endTimeSec := Option.none, duration := 0, status := ClipStatus.recording,
      hasBuffer := false, lockTrack := useDedicatedLoopTrack,
      maxDurationSec := if useDedicatedLoopTrack then some st₁.loopRegionLengthSec
                        else Option.none }
    ({ st₁ with
        nextClipIndex := clipNumber + 1,
        clips := st₁.clips ++ [clip],
        selectedClipId := some clip.id,
        recordingClipId := some clip.id,
        activeTrackId := selectedTrackId,
        recordingStart := nowMsOf t,
        recordingActive := true }, true)

/-- The result surfaced by `finalizeRecording`: the finalized clip, a missing
target, or the decode failure propagated to the caller (the thrown error). -/
inductive FinalizeOutcome
  | noTarget
  | finalized (c : Clip)
  | decodeFailed
  deriving DecidableEq

/-- The target resolution of `finalizeRecording` (`part_004` lines 980-981):
the clip referenced by `recordingClipId`, else the last clip in the
registry. -/
def finalizeTarget (st : AppState) : Option Clip :=
  match getClipById st st.recordingClipId with
  | some c => some c
  | Option.none => st.clips.getLast?

/-- Model of `finalizeRecording` (`part_004` lines 978-1037).
`decoded = some d` stands for `decodeAudioData` resolving with a buffer of
duration `d` (`audioBuffer.duration || 0`); `none` for the decode rejecting,
which takes the catch branch: the clip is removed from the registry, the
recording flags reset, and the error is rethrown (`decodeFailed`). -/
def finalizeRecording (st : AppState) (t : ℚ) (decoded : Option ℚ) :
    AppState × FinalizeOutcome :=
  match finalizeTarget st with
  | Option.none =>
      ({ st with recordingActive := false, recordingClipId := Option.none },
        FinalizeOutcome.noTarget)
  | some target =>
      let elapsedMs := max 0 (nowMsOf t - st.recordingStart)
      let wasLooping := st.isLooping
      let preserveLoopOffset :=
        if st.isPlaybackPlaying then currentPlaybackOffset st t else st.playbackPausedOffset
      match decoded with
      | Option.none =>
          ({ st with
              clips := st.clips.filter fun clip => decide (clip.id ≠ target.id),
              recordingActive := false,
              recordingClipId := Option.none }, FinalizeOutcome.decodeFailed)
      | some decodedDuration =>
          let rawDuration := max (elapsedMs / 1000) decodedDuration
          let duration := jsToFixed 2
            (match target.maxDurationSec with
              | some m => if 0 < m then min rawDuration m else rawDuration
              | Option.none => rawDuration)
          let clipStart := target.startTimeSec
          let clipEnd := jsToFixed 3 (clipStart + duration)
          let updated := { target with
            hasBuffer := true, duration := duration, endTimeSec := some clipEnd,
            status := ClipStatus.ready }
          let st₁ := { st with
            clips := st.clips.map fun c => if c.id = target.id then updated else c }
          let st₂ := assignClipToNonOverlappingTrack st₁ t updated
          let st₃ := { st₂ with
            recordingActive := false, recordingClipId := Option.none,
            selectedClipId := some updated.id }
          let st₄ :=
            if wasLooping then refreshLoopTransportIfNeeded st₃ t preserveLoopOffset else st₃
          (st₄, FinalizeOutcome.finalized updated)

/-- Model of `endRecording` (`part_004` lines 1039-1046): signals capture to
stop (the recorder's `onstop` later invokes `finalizeRecording`). -/
def endRecording (st : AppState) : AppState × Bool :=
  if ¬st.recordingActive ∨ ¬st.mediaRecorderReady then (st, false) else (st, true)

/-- Model of `startPlayback` (`part_004` lines 1223-1246); `false` stands for
the thrown precondition/failure errors, with the state as at the throw. -/
def startPlayback (st : AppState) (t : ℚ) : AppState × Bool :=
  match buildSessionPlaybackBuffer st with
  | Option.none => (st, false)
  | some (buffer, sessionStartSec, _) =>
      let offset := if st.isPlaybackPaused then st.playbackPausedOffset else 0
      let st₁ := stopTransport st StopReason.replace
      let res := createTransport st₁ t (some buffer)
        { clipId := Option.none, offset := offset, loop := false, loopStart := 0,
          loopEnd := buffer.duration, baseStartSec := sessionStartSec,
          mode := TransportMode.session, preserveLoopingState := false }
      if res.2 then ({ res.1 with isLooping := false }, true) else (res.1, false)

/-- Model of `pausePlayback` (`part_004` lines 1248-1255): records the offset
at the pause command, then issues the fade-out stop. -/
def pausePlayback (st : AppState) (t : ℚ) : AppState × Bool :=
  if ¬st.isPlaybackPlaying ∨ ¬st.playback.sourceActive then (st, false)
  else
    let st₁ := { st with playbackPausedOffset := currentPlaybackOffset st t }
    (stopTransport st₁ StopReason.pause, true)

/-- Model of `resumePlayback` (`part_004` lines 1257-1295). -/
def resumePlayback (st : AppState) (t : ℚ) : AppState × Bool :=
  if ¬st.isPlaybackPaused ∨ st.isPlaybackPlaying then (st, false)
  else
    let shouldLoopResume := st.isLooping && decide (0 < st.loopRegionLengthSec)
    let resumeOffset := st.playbackPausedOffset
    let st₁ := stopTransport st StopReason.replace
    if shouldLoopResume then
      let st₂ :=
        if st₁.loopMixBuffer = Option.none then
          { st₁ with loopMixBuffer := buildLoopMixBuffer st₁ }
        else st₁
      startLoopTransport st₂ t resumeOffset
    else
      match buildSessionPlaybackBuffer st₁ with
      | Option.none => (st₁, false)
      | some (buffer, sessionStartSec, _) =>
          let res := createTransport st₁ t (some buffer)
            { clipId := Option.none, offset := resumeOffset, loop := false, loopStart := 0,
              loopEnd := buffer.duration, baseStartSec := sessionStartSec,
              mode := TransportMode.session, preserveLoopingState := false }
          if res.2 then ({ res.1 with isLooping := false }, true) else (res.1, false)

/-- Model of `startLoop` (`part_004` lines 1297-1311): records the pending
loop start marker; `none` stands for the thrown "No ready clip yet.". -/
def startLoop (st : AppState) (t : ℚ) : AppState × Option ℚ :=
  match getSessionRange st with
  | Option.none => (st, Option.none)
  | some (sessionStartSec, sessionEndSec) =>
      let marker := clamp (getLoopMarkerTimeSec st t) sessionStartSec
        (max sessionStartSec (sessionEndSec - MIN_LOOP_REGION_SECONDS))
      let sel := jsToFixed 3 marker
      ({ st with loopSelectionStartSec := some sel }, some sel)

/-- The result of `endLoop`: loop stopped, a region committed, no pending
start (`return false`), or a thrown error. -/
inductive EndLoopOutcome
  | stop
  | range (startSec endSec : ℚ)
  | noStart
  | threw
  deriving DecidableEq

/-- Model of `endLoop` (`part_004` lines 1313-1363). -/
def endLoop (st : AppState) (t : ℚ) : AppState × EndLoopOutcome :=
  if st.isLooping ∧ st.loopSelectionStartSec = Option.none then
    let preserveOffset := currentPlaybackOffset st t
    let st₁ := stopTransport st StopReason.endLoopStop
    ({ st₁ with
        playbackPausedOffset := preserveOffset,
        isLooping := false,
        loopRegionStartSec := Option.none,
        loopRegionLengthSec := 0,
        loopSelectionStartSec := Option.none,
        loopMixBuffer := Option.none }, EndLoopOutcome.stop)
  else
    match st.loopSelectionStartSec with
    | Option.none => (st, EndLoopOutcome.noStart)
    | some loopStartSec =>
        match getSessionRange st with
        | Option.none => (st, EndLoopOutcome.threw)
        | some (sessionStartSec, sessionEndSec) =>
            let rawEndSec := clamp (getLoopMarkerTimeSec st t) sessionStartSec sessionEndSec
            if rawEndSec - loopStartSec < MIN_LOOP_REGION_SECONDS then (st, EndLoopOutcome.threw)
            else
              let currentPhase := clamp (rawEndSec - loopStartSec) 0 (rawEndSec - loopStartSec)
              let lengthSec := jsToFixed 3 (rawEndSec - loopStartSec)
              let st₁ := stopTransport st StopReason.replace
              let st₂ := { st₁ with
                loopRegionStartSec := some loopStartSec,
                loopRegionLengthSec := lengthSec,
                loopSelectionStartSec := Option.none }
              let st₃ := { st₂ with loopMixBuffer := buildLoopMixBuffer st₂ }
              let res := startLoopTransport st₃ t currentPhase
              if res.2 then
                ({ res.1 with isPlaybackPaused := false },
                  EndLoopOutcome.range loopStartSec (jsToFixed 3 (loopStartSec + lengthSec)))
              else (res.1, EndLoopOutcome.threw)

/-- The engine state right after `ENABLE_MIC` succeeds on a fresh session
(`state.js` initial literal with the audio context, recorder and mic up). -/
def initialState : AppState :=
  { audioContextReady := true, ctxSampleRate := 48000, micEnabled := true,
    mediaRecorderReady := true, sessionStartSec := Option.none, recordingActive := false,
    recordingClipId := Option.none, recordingStart := 0, isPlaybackPlaying := false,
    isLooping := false, isPlaybackPaused := false, playbackPausedOffset := 0,
    activeTransportId := 0, loopRegionStartSec := Option.none, loopRegionLengthSec := 0,
    loopSelectionStartSec := Option.none, loopMixBuffer := Option.none,
    playback := {
      sourceActive := false, clipId := Option.none, duration := 0,
      startOffset := 0, startedAt := 0, playbackRate := 1, loop := false,
      manualStopReason := StopReason.noReason, transportId := 0, baseStartSec := 0,
      mode := TransportMode.clip, preserveLoopingState := false },
    playbackPlayheadSec := 0, tracks := [⟨1⟩], activeTrackId := 1, clips := [],
    selectedClipId := Option.none, nextClipIndex := 1, transportSeq := 0 }

/-- States reachable from the post-`ENABLE_MIC` initial state by any
sequence of `startRecording` / `finalizeRecording` operations, at arbitrary
times; a decode result is a buffer duration `d ≥ 0` or a failure. -/
inductive RecordReachable : AppState → Prop
  | init : RecordReachable initialState
  | startRec (st : AppState) (t : ℚ) :
      RecordReachable st → RecordReachable (startRecording st t).1
  | finalizeOk (st : AppState) (t d : ℚ) (hd : 0 ≤ d) :
      RecordReachable st → RecordReachable (finalizeRecording st t (some d)).1
  | finalizeFail (st : AppState) (t : ℚ) :
      RecordReachable st → RecordReachable (finalizeRecording st t Option.none).1

/-! ## Invariants of the registry under record/finalize sequences (claim C1) -/

/-- The stored lower interval bound of a clip. -/
def clipLo (c : Clip) : ℚ :=
  c.startTimeSec

/-- The stored upper interval bound of a clip (its start while the end is
still null). -/
def clipHi (c : Clip) : ℚ :=
  c.endTimeSec.getD c.startTimeSec

/-- Per-clip well-formedness maintained by the recording controller:
the interval is nonempty-ordered, both bounds carry at most three decimals
(`toFixed(3)` / `toFixed(2)` rounding), and `ready` status coincides with a
non-null end. -/
def ClipWF (c : Clip) : Prop :=
  clipLo c ≤ clipHi c ∧ DecimalMult 3 (clipLo c) ∧ DecimalMult 3 (clipHi c) ∧
    (c.status = ClipStatus.ready ↔ c.endTimeSec.isSome = true)

/-- The registry invariant over record/finalize sequences: stored intervals
are chained in insertion order (each clip ends no later than every later
clip starts), clips are well-formed with strictly increasing fresh ids, at
most the last clip is recording (matching the active flag), and looping is
off (no loop commands are among the operations considered). -/
structure Inv (st : AppState) : Prop where
  chain : st.clips.Pairwise fun a b => clipHi a ≤ clipLo b
  wf : ∀ c ∈ st.clips, ClipWF c
  idsInc : st.clips.Pairwise fun a b => a.id < b.id
  idBound : ∀ c ∈ st.clips, c.id < st.nextClipIndex
  recCase :
    (st.recordingActive = false ∧ st.recordingClipId = Option.none ∧
      ∀ c ∈ st.clips, c.status = ClipStatus.ready)
    ∨ (st.recordingActive = true ∧ ∃ pre l, st.clips = pre ++ [l] ∧
        st.recordingClipId = some l.id ∧ l.status = ClipStatus.recording ∧
        l.endTimeSec = Option.none ∧ ∀ c ∈ pre, c.status = ClipStatus.ready)
  noLoop : st.isLooping = false

/-- The clip produced by `finalizeRecording`'s success path for a target
clip and computed duration. -/
def finalizedClip (target : Clip) (D : ℚ) : Clip :=
  { target with
    hasBuffer := true, duration := D,
    endTimeSec := some (jsToFixed 3 (target.startTimeSec + D)),
    status := ClipStatus.ready }

/-! ### A concrete two-clip trace: record at `t = 0`, finalize with a
zero-length decoded buffer, record again at `t = 0`. -/

/-- The live clip created by the first `startRecording` at `t = 0`. -/
def recClip1 : Clip :=
  { id := 1, trackId := 1, startTimeSec := 0, endTimeSec := Option.none, duration := 0,
    status := ClipStatus.recording, hasBuffer := false, lockTrack := false,
    maxDurationSec := Option.none }

/-- The first clip once finalized with a zero-duration decode. -/
def readyClip1 : Clip :=
  { recClip1 with hasBuffer := true, endTimeSec := some 0, status := ClipStatus.ready }

/-- The live clip created by the second `startRecording` at `t = 0`. -/
def recClip2 : Clip :=
  { recClip1 with id := 2 }

/-- The state after the first `startRecording` at `t = 0`. -/
def stA : AppState :=
  { initialState with
    sessionStartSec := some 0, recordingActive := true, recordingClipId := some 1,
    recordingStart := 0, clips := [recClip1], selectedClipId := some 1,
    nextClipIndex := 2, activeTrackId := 1 }

/-- The state after finalizing the first recording at `t = 0` with a
zero-duration decoded buffer. -/
def stB : AppState :=
  { stA with
    recordingActive := false
    recordingClipId := Option.none
    clips := [readyClip1]
    selectedClipId := some 1 }

/-- The state after the second `startRecording` at `t = 0`. -/
def stC : AppState :=
  { stB with
    recordingActive := true
    recordingClipId := some 2
    clips := [readyClip1, recClip2]
    selectedClipId := some 2
    nextClipIndex := 3
    recordingStart := 0
    activeTrackId := 1 }

/-! ### Concrete playing transport for the C4 witness and counterexample -/

/-- A finalized unit-length clip spanning `[0 s, 1 s]`. -/
def readyClipD : Clip :=
  { id := 1, trackId := 1, startTimeSec := 0, endTimeSec := some 1, duration := 1,
    status := ClipStatus.ready, hasBuffer := true, lockTrack := false,
    maxDurationSec := Option.none }

/-- The session mix buffer over `[0, 1]` at 48 kHz. -/
def bufD : BufMeta := ⟨48000, 48000⟩

/-- A state whose session transport over the unit clip started playing at
`t = 0` (offset 0, rate 1, non-looping). -/
def stPlay : AppState :=
  { initialState with
    sessionStartSec := some 0
    clips := [readyClipD]
    nextClipIndex := 2
    isPlaybackPlaying := true
    activeTransportId := 1
    transportSeq := 1
    playback := {
      sourceActive := true, clipId := Option.none, duration := 1, startOffset := 0,
      startedAt := 0, playbackRate := 1, loop := false,
      manualStopReason := StopReason.noReason, transportId := 1, baseStartSec := 0,
      mode := TransportMode.session, preserveLoopingState := false } }

/-- The concrete paused state reached by pausing `stPlay` at `t = 2`
(playback ran past the end of the unit buffer, so the recorded offset
clamps to the full duration `1`). -/
def stPausedD : AppState :=
  { stPlay with
    isPlaybackPlaying := false
    isPlaybackPaused := true
    playbackPausedOffset := 1
    playbackPlayheadSec := 1
    playback := { stPlay.playback with
      sourceActive := false
      manualStopReason := StopReason.noReason } }

/-- The unit-clip playing state with a pending loop start marker at `0`. -/
def stLoopSel : AppState :=
  { stPlay with loopSelectionStartSec := some 0 }

/-- The unit-clip state with an active loop over `[0, 1]` (loop transport
playing since `t = 0`), and no pending start marker. -/
def stLoopStop : AppState :=
  { stPlay with
    isLooping := true
    loopRegionStartSec := some 0
    loopRegionLengthSec := 1
    playback := { stPlay.playback with
      loop := true
      mode := TransportMode.loop
      preserveLoopingState := true } }

/-- The state after `endLoop`'s stop branch on `stLoopStop` at `t = 1/2`
(preserved offset `0.5` stashed, loop bookkeeping cleared, fade-out stop
pending). -/
def stLoopStopped : AppState :=
  { stLoopStop with
    playbackPausedOffset := 1 / 2
    isLooping := false
    loopRegionStartSec := Option.none
    loopRegionLengthSec := 0
    loopSelectionStartSec := Option.none
    loopMixBuffer := Option.none
    playback := { stLoopStop.playback with
      manualStopReason := StopReason.endLoopStop } }

end Engine

/-! # Theorems -/

theorem clamp_le (value lo hi : ℚ) : clamp value lo hi ≤ hi :=
  min_le_left _ _

theorem le_clamp (value lo hi : ℚ) (h : 0 ≤ lo) : 0 ≤ clamp value lo hi ∨ hi < 0 := by
  rcases le_or_lt 0 hi with hhi | hhi
  · exact Or.inl (le_min hhi (le_trans h (le_max_left _ _)))
  · exact Or.inr hhi

theorem clamp_nonneg (value hi : ℚ) (hhi : 0 ≤ hi) : 0 ≤ clamp value 0 hi :=
  le_min hhi (le_max_left _ _)

theorem clamp_of_mem (value lo hi : ℚ) (h1 : lo ≤ value) (h2 : value ≤ hi) :
    clamp value lo hi = value := by
  unfold clamp
  rw [max_eq_right h1, min_eq_right h2]

theorem jsToFixed_nonneg (n : ℕ) (q : ℚ) (hq : 0 ≤ q) : 0 ≤ jsToFixed n q := by
  unfold jsToFixed
  have h10 : (0 : ℚ) < 10 ^ n := by positivity
  apply div_nonneg _ (le_of_lt h10)
  have : (0 : ℤ) ≤ ⌊q * 10 ^ n + 1 / 2⌋ := by
    apply Int.floor_nonneg.2
    positivity
  exact_mod_cast this

theorem jsToFixed_decimalMult (n : ℕ) (q : ℚ) : DecimalMult n (jsToFixed n q) :=
  ⟨⌊q * 10 ^ n + 1 / 2⌋, rfl⟩

theorem jsToFixed_eq_self (n : ℕ) (q : ℚ) (h : DecimalMult n q) : jsToFixed n q = q := by
  obtain ⟨k, rfl⟩ := h
  unfold jsToFixed
  have h10 : (0 : ℚ) < 10 ^ n := by positivity
  rw [div_mul_cancel₀ _ (ne_of_gt h10)]
  congr 1
  have hfl : ⌊(k : ℚ) + 1 / 2⌋ = k := by
    rw [Int.floor_int_add]
    norm_num
  exact_mod_cast hfl

theorem jsToFixed_zero (n : ℕ) : jsToFixed n 0 = 0 :=
  jsToFixed_eq_self n 0 ⟨0, by norm_num⟩

theorem decimalMult_add (n : ℕ) (a b : ℚ) (ha : DecimalMult n a) (hb : DecimalMult n b) :
    DecimalMult n (a + b) := by
  obtain ⟨k, rfl⟩ := ha
  obtain ⟨l, rfl⟩ := hb
  exact ⟨k + l, by push_cast; ring⟩

theorem decimalMult_mono (a b : ℕ) (q : ℚ) (hab : a ≤ b) (h : DecimalMult a q) :
    DecimalMult b q := by
  obtain ⟨k, rfl⟩ := h
  refine ⟨k * 10 ^ (b - a), ?_⟩
  have hpow : (10 : ℚ) ^ b = 10 ^ (b - a) * 10 ^ a := by
    rw [← pow_add]
    congr 1
    omega
  push_cast
  rw [hpow, mul_comm (k : ℚ) _,
    mul_div_mul_left _ _ (ne_of_gt (by positivity : (0 : ℚ) < 10 ^ (b - a)))]

theorem jsToFixed_ge_nonneg (n : ℕ) (q : ℚ) : q - 1 / 10 ^ n ≤ jsToFixed n q := by
  unfold jsToFixed
  have h10 : (0 : ℚ) < 10 ^ n := by positivity
  rw [le_div_iff₀ h10]
  have hexp : (q - 1 / 10 ^ n) * 10 ^ n = q * 10 ^ n - 1 := by
    field_simp
  rw [hexp]
  have h3 : q * 10 ^ n + 1 / 2 - 1 < (⌊q * 10 ^ n + 1 / 2⌋ : ℚ) :=
    Int.sub_one_lt_floor (q * 10 ^ n + 1 / 2)
  linarith

namespace MixerDelay

theorem delayFeedbackMax_nonneg (d : DelayState) : 0 ≤ delayFeedbackMax d := by
  unfold delayFeedbackMax
  split <;> norm_num

/-- After any delay command dispatched with the audio graph present, the
stored feedback lies in `[0, delayFeedbackMax]` of the resulting state. -/
theorem dispatchDelayAction_feedback_inv (d : DelayState) (c : DelayCmd) :
    0 ≤ (dispatchDelayAction true d c).feedback ∧
      (dispatchDelayAction true d c).feedback ≤
        delayFeedbackMax (dispatchDelayAction true d c) := by
  have key : ∀ e : DelayState, 0 ≤ (updateEffectsNodesDelay true e).feedback ∧
      (updateEffectsNodesDelay true e).feedback ≤
        delayFeedbackMax (updateEffectsNodesDelay true e) := by
    intro e
    have hmax : 0 ≤ delayFeedbackMax e := delayFeedbackMax_nonneg e
    have h1 : 0 ≤ clamp e.feedback 0 (delayFeedbackMax e) := clamp_nonneg _ _ hmax
    have h2 : clamp e.feedback 0 (delayFeedbackMax e) ≤ delayFeedbackMax e := clamp_le _ _ _
    have hadv : (updateEffectsNodesDelay true e).advancedClamp = e.advancedClamp := by
      unfold updateEffectsNodesDelay; rfl
    unfold updateEffectsNodesDelay at hadv ⊢
    simp only [if_true]
    refine ⟨h1, ?_⟩
    have : delayFeedbackMax { e with feedback := clamp e.feedback 0 (delayFeedbackMax e) }
        = delayFeedbackMax e := by
      unfold delayFeedbackMax; rfl
    rw [this]
    exact h2
  cases c <;> exact key _

theorem runDelayActions_feedback_inv (d : DelayState) (cmds : List DelayCmd)
    (h0 : 0 ≤ d.feedback) (h1 : d.feedback ≤ delayFeedbackMax d) :
    0 ≤ (runDelayActions true d cmds).feedback ∧
      (runDelayActions true d cmds).feedback ≤
        delayFeedbackMax (runDelayActions true d cmds) := by
  induction cmds generalizing d with
  | nil => exact ⟨h0, h1⟩
  | cons c rest ih =>
      have step := dispatchDelayAction_feedback_inv d c
      exact ih (dispatchDelayAction true d c) step.1 step.2

end MixerDelay

namespace FX

theorem processEchoReverbBlockBypass_sample (inputChannels : List (List (Option ℚ)))
    (channelCount frameCount ch i : ℕ) (hch : ch < channelCount) (hi : i < frameCount) :
    ((processEchoReverbBlockBypass inputChannels channelCount frameCount).getD ch []).getD i 0
      = echoReverbInput inputChannels ch i := by
  unfold processEchoReverbBlockBypass
  simp only [List.getD_eq_getElem?_getD, List.getElem?_map, List.getElem?_range hch,
    List.getElem?_range hi, Option.map_some', Option.getD_some]

end FX

/-! ## Facts about `Real.tanh` used by the soft clipper -/

theorem tanh_lt_one (x : ℝ) : Real.tanh x < 1 := by
  rw [Real.tanh_eq_sinh_div_cosh, div_lt_one (Real.cosh_pos x)]
  exact Real.sinh_lt_cosh x

theorem neg_one_lt_tanh (x : ℝ) : -1 < Real.tanh x := by
  rw [Real.tanh_eq_sinh_div_cosh, lt_div_iff₀ (Real.cosh_pos x)]
  have h := Real.sinh_lt_cosh (-x)
  rw [Real.sinh_neg, Real.cosh_neg] at h
  linarith

theorem abs_tanh_le_one (x : ℝ) : |Real.tanh x| ≤ 1 :=
  abs_le.2 ⟨le_of_lt (neg_one_lt_tanh x), le_of_lt (tanh_lt_one x)⟩

theorem tanh_injective : Function.Injective Real.tanh := by
  intro a b h
  rw [Real.tanh_eq_sinh_div_cosh, Real.tanh_eq_sinh_div_cosh,
    div_eq_div_iff (ne_of_gt (Real.cosh_pos a)) (ne_of_gt (Real.cosh_pos b))] at h
  have hs : Real.sinh (a - b) = 0 := by
    rw [Real.sinh_sub]
    linarith
  have := Real.sinh_eq_zero.1 hs
  linarith [sub_eq_zero.1 this]

namespace Mix

theorem bounded_zero : Bounded (fun _ _ => (0 : ℝ)) := by
  intro ch f
  simp

theorem accumulateFrame_bounded (sourceBuffer : SourceBuffer) (destinationFrame : ℕ)
    (sourceFrame : ℚ) (acc : ℕ → ℕ → ℝ) (h : Bounded acc) :
    Bounded (accumulateFrame sourceBuffer destinationFrame sourceFrame acc) := by
  intro ch f
  unfold accumulateFrame
  split
  · exact abs_tanh_le_one _
  · exact h ch f

theorem mixFrames_bounded (sourceBuffer : SourceBuffer) (inc limit : ℚ) (count : ℕ) :
    ∀ (destFrame : ℕ) (sourceFrame : ℚ) (acc : ℕ → ℕ → ℝ), Bounded acc →
      Bounded (mixFrames sourceBuffer inc limit count destFrame sourceFrame acc) := by
  induction count with
  | zero => intro _ _ acc h; exact h
  | succ n ih =>
      intro destFrame sourceFrame acc h
      unfold mixFrames
      split
      · exact h
      · exact ih _ _ _ (accumulateFrame_bounded _ _ _ _ h)

theorem mixClipInto_bounded (ctxSampleRate : ℚ) (bufferFrames : ℕ) (mixStart mixEnd : ℚ)
    (acc : ℕ → ℕ → ℝ) (clip : ReadyClipView) (h : Bounded acc) :
    Bounded (mixClipInto ctxSampleRate bufferFrames mixStart mixEnd acc clip) := by
  unfold mixClipInto
  dsimp only
  split
  · exact h
  · split
    · exact h
    · exact mixFrames_bounded _ _ _ _ _ _ _ h

theorem foldl_mixClipInto_bounded (ctxSampleRate : ℚ) (bufferFrames : ℕ) (mixStart mixEnd : ℚ)
    (clips : List ReadyClipView) :
    ∀ (acc : ℕ → ℕ → ℝ), Bounded acc →
      Bounded (clips.foldl (mixClipInto ctxSampleRate bufferFrames mixStart mixEnd) acc) := by
  induction clips with
  | nil => intro acc h; exact h
  | cons c rest ih =>
      intro acc h
      exact ih _ (mixClipInto_bounded _ _ _ _ _ _ h)

theorem buildMixedBufferForWindow_frames (ctxSampleRate : ℚ) (clips : List MixClip)
    (wStart lengthSec : ℚ) (provided : Option (List ReadyClipView)) (h : 0 < lengthSec) :
    (buildMixedBufferForWindow true ctxSampleRate clips (some wStart) lengthSec provided).map
        MixedBuffer.frames
      = some (max 1 (jsRound (lengthSec * ctxSampleRate)).toNat) := by
  unfold buildMixedBufferForWindow
  dsimp only
  rw [if_neg (not_le.2 h)]
  split <;> rfl

theorem buildMixedBufferForWindow_bounded (ctxReady : Bool) (ctxSampleRate : ℚ)
    (clips : List MixClip) (windowStartSec : Option ℚ) (windowLengthSec : ℚ)
    (providedClips : Option (List ReadyClipView)) (buf : MixedBuffer)
    (h : buildMixedBufferForWindow ctxReady ctxSampleRate clips windowStartSec windowLengthSec
        providedClips = some buf) :
    Bounded buf.chan := by
  unfold buildMixedBufferForWindow at h
  match ctxReady, windowStartSec with
  | false, w => simp at h
  | true, none => simp at h
  | true, some wStart =>
      simp only at h
      split at h
      · exact absurd h (by simp)
      · split at h
        · obtain rfl := Option.some.inj h
          exact bounded_zero
        · obtain rfl := Option.some.inj h
          exact foldl_mixClipInto_bounded _ _ _ _ _ _ bounded_zero

theorem readSampleAtFrame_pair (u v : ℝ) : readSampleAtFrame [u, v] 0 = u := by
  unfold readSampleAtFrame
  norm_num [clamp, min_def, max_def, List.getD]

theorem accumulateFrame_sample (x : ℝ) (acc : ℕ → ℕ → ℝ) :
    accumulateFrame (sampleBuffer x) 0 0 acc 0 0
      = Real.tanh ((acc 0 0 + x) * SOFT_CLIP_GAIN) := by
  unfold accumulateFrame softClipSample sampleBuffer SourceBuffer.getChannelData
  norm_num [LOOP_MIX_CHANNELS, readSampleAtFrame_pair, List.getD]

theorem mixClipInto_sample (x : ℝ) (acc : ℕ → ℕ → ℝ) :
    mixClipInto 48000 1 0 (1 / 48000) acc ⟨0, 1, sampleBuffer x⟩
      = accumulateFrame (sampleBuffer x) 0 0 acc := by
  unfold mixClipInto
  dsimp only
  norm_num [sampleBuffer, min_def, max_def, mixFrames]

theorem jsRound_one_frame : jsRound ((1 : ℚ) / 48000 * 48000) = 1 := by
  unfold jsRound
  rw [show ((1 : ℚ) / 48000 * 48000 + 1 / 2) = 3 / 2 by norm_num]
  rw [Int.floor_eq_iff]
  norm_num

theorem overlap_one_frame : intervalsOverlap 0 (1 / 48000) 0 1 = true := by
  unfold intervalsOverlap
  rw [decide_eq_true_eq]
  norm_num

theorem build_one_sampleClip_chan (a : ℝ) :
    (buildMixedBufferForWindow true 48000 [sampleClip a] (some 0) (1 / 48000) none).map
        (fun buf => buf.chan 0 0)
      = some (Real.tanh (a * SOFT_CLIP_GAIN)) := by
  have hviews : getReadyClipsWithTime [sampleClip a] = [⟨0, 1, sampleBuffer a⟩] := by
    unfold getReadyClipsWithTime sampleClip
    norm_num [List.filterMap]
  unfold buildMixedBufferForWindow
  dsimp only
  rw [if_neg (by norm_num : ¬ (1 / 48000 : ℚ) ≤ 0), if_neg (by norm_num : ¬ (1 / 48000 : ℚ) = 0)]
  rw [Option.getD_none, hviews, jsRound_one_frame, Option.map_some', Option.some.injEq]
  dsimp only
  rw [show (1 : ℕ) ⊔ Int.toNat 1 = 1 from rfl,
    show ((0 : ℚ) + 1 / 48000) = 1 / 48000 from by norm_num]
  rw [List.filter_cons, List.filter_nil]
  dsimp only
  rw [overlap_one_frame, if_pos rfl]
  rw [List.foldl_cons, List.foldl_nil, mixClipInto_sample, accumulateFrame_sample]
  norm_num

theorem build_two_sampleClips_chan (a b : ℝ) :
    (buildMixedBufferForWindow true 48000 [sampleClip a, sampleClip b] (some 0) (1 / 48000)
        none).map (fun buf => buf.chan 0 0)
      = some (Real.tanh ((Real.tanh (a * SOFT_CLIP_GAIN) + b) * SOFT_CLIP_GAIN)) := by
  have hviews : getReadyClipsWithTime [sampleClip a, sampleClip b]
      = [⟨0, 1, sampleBuffer a⟩, ⟨0, 1, sampleBuffer b⟩] := by
    unfold getReadyClipsWithTime sampleClip
    norm_num [List.filterMap]
  unfold buildMixedBufferForWindow
  dsimp only
  rw [if_neg (by norm_num : ¬ (1 / 48000 : ℚ) ≤ 0), if_neg (by norm_num : ¬ (1 / 48000 : ℚ) = 0)]
  rw [Option.getD_none, hviews, jsRound_one_frame, Option.map_some', Option.some.injEq]
  dsimp only
  rw [show (1 : ℕ) ⊔ Int.toNat 1 = 1 from rfl,
    show ((0 : ℚ) + 1 / 48000) = 1 / 48000 from by norm_num]
  rw [List.filter_cons, List.filter_cons, List.filter_nil]
  dsimp only
  rw [overlap_one_frame, if_pos rfl, if_pos rfl]
  rw [List.foldl_cons, List.foldl_cons, List.foldl_nil, mixClipInto_sample, mixClipInto_sample,
    accumulateFrame_sample, accumulateFrame_sample]
  norm_num

/-! ### Claim C2 — how the soft clipper is applied -/

/-- C2 (amended): the soft clipper is applied to the running accumulator once
per overlapping clip per sample — `acc ↦ tanh((acc + s) * 1.15)` — not once
after a plain sum.  For a one-frame window covered by a single unit clip with
sample `a` the output frame is `tanh(a * 1.15)` (the claimed formula), and
for two such clips with samples `a` and `b` it is the nested
`tanh((tanh(a * 1.15) + b) * 1.15)`. -/
theorem mix_softclip_applied_per_clip (a b : ℝ) :
    (buildMixedBufferForWindow true 48000 [sampleClip a] (some 0) (1 / 48000) none).map
        (fun buf => buf.chan 0 0) = some (Real.tanh (a * SOFT_CLIP_GAIN))
    ∧ (buildMixedBufferForWindow true 48000 [sampleClip a, sampleClip b] (some 0) (1 / 48000)
        none).map (fun buf => buf.chan 0 0)
        = some (Real.tanh ((Real.tanh (a * SOFT_CLIP_GAIN) + b) * SOFT_CLIP_GAIN)) :=
  ⟨build_one_sampleClip_chan a, build_two_sampleClips_chan a b⟩

/-- C2 counterexample: with two unit clips (samples `1` and `1`) overlapping a
one-frame window, the output frame differs from `tanh(1.15 * (1 + 1))`, the
value the claim's accumulate-then-clip formula would give. -/
theorem mix_softclip_once_counterexample :
    (buildMixedBufferForWindow true 48000 [sampleClip 1, sampleClip 1] (some 0) (1 / 48000)
        none).map (fun buf => buf.chan 0 0)
      ≠ some (Real.tanh (SOFT_CLIP_GAIN * (1 + 1))) := by
  rw [build_two_sampleClips_chan]
  intro h
  have h2 := Option.some.inj h
  have h3 := tanh_injective h2
  have hg : (0 : ℝ) < SOFT_CLIP_GAIN := by norm_num [SOFT_CLIP_GAIN]
  have hlt : Real.tanh ((1 : ℝ) * SOFT_CLIP_GAIN) < 1 := tanh_lt_one _
  rw [show SOFT_CLIP_GAIN * (1 + 1) = (1 + 1) * SOFT_CLIP_GAIN from mul_comm _ _] at h3
  have h4 := mul_right_cancel₀ (ne_of_gt hg) h3
  linarith

/-! ### Claim C3 — mix output bounded in `[-1, 1]` -/

/-- C3 (confirmed): for every time window and every set of ready clips
(in particular those of at most unit amplitude), every sample of the buffer
returned by the mix builder lies within `[-1, 1]`. -/
theorem mix_output_within_unit_interval (ctxReady : Bool) (ctxSampleRate : ℚ)
    (clips : List MixClip) (windowStartSec : Option ℚ) (windowLengthSec : ℚ)
    (provided : Option (List ReadyClipView)) (ch f : ℕ) (x : ℝ)
    (_hamp : ∀ clip ∈ clips, ∀ b, clip.buffer = some b → ∀ cd ∈ b.data, ∀ s ∈ cd,
      -1 ≤ s ∧ s ≤ 1)
    (hx : (buildMixedBufferForWindow ctxReady ctxSampleRate clips windowStartSec windowLengthSec
        provided).map (fun buf => buf.chan ch f) = some x) :
    -1 ≤ x ∧ x ≤ 1 := by
  cases hbuf : buildMixedBufferForWindow ctxReady ctxSampleRate clips windowStartSec
      windowLengthSec provided with
  | none =>
      rw [hbuf] at hx
      exact absurd hx (by simp)
  | some buf =>
      rw [hbuf, Option.map_some', Option.some.injEq] at hx
      have hb := buildMixedBufferForWindow_bounded _ _ _ _ _ _ _ hbuf ch f
      rw [hx] at hb
      exact abs_le.1 hb

/-- C3 witness: the bound instantiated on a concrete one-clip window. -/
theorem mix_output_within_unit_interval_witness :
    -1 ≤ Real.tanh ((1 : ℝ) * SOFT_CLIP_GAIN) ∧ Real.tanh ((1 : ℝ) * SOFT_CLIP_GAIN) ≤ 1 :=
  mix_output_within_unit_interval true 48000 [sampleClip 1] (some 0) (1 / 48000) none 0 0 _
    (by
      intro clip hc b hb cd hcd s hs
      simp only [List.mem_singleton] at hc
      subst hc
      simp only [sampleClip, Option.some.injEq] at hb
      subst hb
      simp only [sampleBuffer, List.mem_singleton] at hcd
      subst hcd
      simp only [List.mem_cons, List.not_mem_nil, or_false] at hs
      rcases hs with rfl | rfl <;> norm_num)
    (build_one_sampleClip_chan 1)

/-! ### Claim C9 — output length in frames -/

/-- C9 (amended): for every window length `lengthSec > 0` the buffer returned
by the mix builder has exactly `max 1 (round (lengthSec * sampleRate))`
frames — the frame count is floored at 1, not exactly
`round(lengthSec * sampleRate)`. -/
theorem buildWindow_frames_amended (ctxSampleRate : ℚ) (clips : List MixClip)
    (wStart lengthSec : ℚ) (provided : Option (List ReadyClipView)) (h : 0 < lengthSec) :
    (buildMixedBufferForWindow true ctxSampleRate clips (some wStart) lengthSec provided).map
        MixedBuffer.frames
      = some (max 1 (jsRound (lengthSec * ctxSampleRate)).toNat) :=
  buildMixedBufferForWindow_frames ctxSampleRate clips wStart lengthSec provided h

/-- C9 witness: a 1-second window at 48 kHz yields 48000 frames. -/
theorem buildWindow_frames_amended_witness :
    (buildMixedBufferForWindow true 48000 [] (some 0) 1 none).map MixedBuffer.frames
      = some 48000 := by
  rw [buildWindow_frames_amended 48000 [] 0 1 none (by norm_num)]
  have hr : jsRound ((1 : ℚ) * 48000) = 48000 := by
    unfold jsRound
    rw [show ((1 : ℚ) * 48000 + 1 / 2) = 96001 / 2 by norm_num]
    rw [Int.floor_eq_iff]
    norm_num
  rw [hr]
  rfl

/-- C9 counterexample: a positive window of `1/100000` s at 48 kHz rounds to
`0` frames, yet the builder returns a 1-frame buffer. -/
theorem buildWindow_frames_counterexample :
    (buildMixedBufferForWindow true 48000 [] (some 0) (1 / 100000) none).map MixedBuffer.frames
        = some 1
    ∧ jsRound ((1 / 100000 : ℚ) * 48000) = 0 := by
  have hr : jsRound ((1 / 100000 : ℚ) * 48000) = 0 := by
    unfold jsRound
    rw [show ((1 / 100000 : ℚ) * 48000 + 1 / 2) = 49 / 50 by norm_num]
    rw [Int.floor_eq_iff]
    norm_num
  refine ⟨?_, hr⟩
  rw [buildMixedBufferForWindow_frames 48000 [] 0 (1 / 100000) none (by norm_num), hr]
  rfl

end Mix

namespace Engine

theorem intervalsOverlap_false_of {a b c d : ℚ} (h : ¬(a < d ∧ b > c)) :
    intervalsOverlap a b c d = false := by
  unfold intervalsOverlap
  exact decide_eq_false h

theorem clipIntervalAtTime_fst (st : AppState) (c : Clip) (nowSec : ℚ) :
    (clipIntervalAtTime st c nowSec).1 = c.startTimeSec := by
  unfold clipIntervalAtTime
  dsimp only
  split
  · rfl
  · split <;> rfl

theorem clipIntervalAtTime_ready (st : AppState) (c : Clip) (nowSec : ℚ)
    (h : c.status = ClipStatus.ready) :
    clipIntervalAtTime st c nowSec = (c.startTimeSec, c.endTimeSec.getD c.startTimeSec) := by
  unfold clipIntervalAtTime
  rw [if_pos h]

/-- Under the invariant, distinct clips never have overlapping effective
intervals, at any evaluation instant (same track or not). -/
theorem inv_no_overlap (st : AppState) (hInv : Inv st) (nowSec : ℚ) (i j : ℕ)
    (c1 c2 : Clip) (hne : i ≠ j) (h1 : st.clips[i]? = some c1) (h2 : st.clips[j]? = some c2) :
    intervalsOverlap (clipIntervalAtTime st c1 nowSec).1 (clipIntervalAtTime st c1 nowSec).2
      (clipIntervalAtTime st c2 nowSec).1 (clipIntervalAtTime st c2 nowSec).2 = false := by
  obtain ⟨hi, hgi⟩ := List.getElem?_eq_some.1 h1
  obtain ⟨hj, hgj⟩ := List.getElem?_eq_some.1 h2
  -- whichever of the two comes earlier in the registry ends before the other
  -- starts; an index holding a `recording` clip is forced to be the last one.
  have key : ∀ (a b : ℕ) (ca cb : Clip), a < b → ∀ (ha : a < st.clips.length)
      (hb : b < st.clips.length), st.clips[a] = ca → st.clips[b] = cb →
      (clipIntervalAtTime st ca nowSec).2 ≤ (clipIntervalAtTime st cb nowSec).1 := by
    intro a b ca cb hab ha hb hga hgb
    have hchain := List.pairwise_iff_getElem.1 hInv.chain a b ha hb hab
    rw [hga, hgb] at hchain
    have hmem_a : ca ∈ st.clips := hga ▸ List.getElem_mem ha
    have hwa := hInv.wf ca hmem_a
    rw [clipIntervalAtTime_fst]
    -- the earlier clip must be ready: a recording clip sits at the last index
    have hready : ca.status = ClipStatus.ready := by
      rcases hInv.recCase with ⟨_, _, hall⟩ | ⟨_, pre, l, hdecomp, _, _, _, hpre⟩
      · exact hall ca hmem_a
      · by_contra hnot
        -- then `ca` is the final recording clip, yet a clip with a larger id
        -- follows it — impossible since ids increase and the tail is last.
        have hca_l : ca = l := by
          have hm := hdecomp ▸ hmem_a
          rcases List.mem_append.1 hm with hin | hin
          · exact absurd (hpre ca hin) hnot
          · simpa using hin
        have hids := List.pairwise_iff_getElem.1 hInv.idsInc a b ha hb hab
        rw [hga, hgb, hca_l] at hids
        have hmem_b : cb ∈ st.clips := hgb ▸ List.getElem_mem hb
        have hmb := hdecomp ▸ hmem_b
        rcases List.mem_append.1 hmb with hin | hin
        · have hlt := (List.pairwise_append.1 (hdecomp ▸ hInv.idsInc)).2.2 cb hin l (by simp)
          omega
        · have hcb_l : cb = l := by simpa using hin
          rw [hcb_l] at hids
          omega
    rw [clipIntervalAtTime_ready st ca nowSec hready]
    exact hchain
  rcases Nat.lt_or_ge i j with hij | hge
  · have h2le := key i j c1 c2 hij hi hj hgi hgj
    apply intervalsOverlap_false_of
    rintro ⟨-, hgt⟩
    rw [clipIntervalAtTime_fst] at hgt
    rw [clipIntervalAtTime_fst] at h2le
    exact absurd hgt (not_lt.2 h2le)
  · have hji : j < i := by omega
    have h2le := key j i c2 c1 hji hj hi hgj hgi
    apply intervalsOverlap_false_of
    rintro ⟨hlt, -⟩
    rw [clipIntervalAtTime_fst] at hlt
    rw [clipIntervalAtTime_fst] at h2le
    exact absurd hlt (not_lt.2 h2le)

theorem Inv.congr_fields {st st' : AppState} (h : Inv st) (hc : st'.clips = st.clips)
    (hn : st'.nextClipIndex = st.nextClipIndex) (hra : st'.recordingActive = st.recordingActive)
    (hrc : st'.recordingClipId = st.recordingClipId) (hl : st'.isLooping = st.isLooping) :
    Inv st' := by
  refine ⟨?_, ?_, ?_, ?_, ?_, ?_⟩
  · rw [hc]; exact h.chain
  · rw [hc]; exact h.wf
  · rw [hc]; exact h.idsInc
  · rw [hc, hn]; exact h.idBound
  · rw [hc, hra, hrc]; exact h.recCase
  · rw [hl]; exact h.noLoop

theorem getTrackForTimeRange_snd (st : AppState) (t probeStart probeEnd : ℚ)
    (excludeClipId : Option ℕ) :
    ∃ tr, (getTrackForTimeRange st t probeStart probeEnd excludeClipId).2 =
      { st with tracks := tr } := by
  unfold getTrackForTimeRange
  cases st.tracks.find? fun candidate =>
      !(hasTimeOverlap st t candidate.id probeStart probeEnd excludeClipId) with
  | none => exact ⟨st.tracks ++ [⟨st.tracks.length + 1⟩], rfl⟩
  | some candidate => exact ⟨st.tracks, rfl⟩

theorem loopRecordingStartSec_none (st : AppState) (t : ℚ) (h : st.isLooping = false) :
    loopRecordingStartSec st t = Option.none := by
  unfold loopRecordingStartSec
  rw [if_pos]
  exact Or.inl (by simp [h])

/-- When no recording is active, the `lastReadyClipEndTimeSec` scan covers
the whole registry: it is `none` exactly on an empty registry, and otherwise
returns the last clip's end, which bounds every stored interval. -/
theorem lastReady_inactive_spec (st : AppState) (hInv : Inv st)
    (hact : st.recordingActive = false) :
    (st.clips = [] ∧ lastReadyClipEndTimeSec st = Option.none) ∨
    (∃ e, lastReadyClipEndTimeSec st = some e ∧ DecimalMult 3 e ∧
      ∀ c ∈ st.clips, clipHi c ≤ e) := by
  have hall : ∀ c ∈ st.clips, c.status = ClipStatus.ready := by
    rcases hInv.recCase with ⟨_, _, h⟩ | ⟨hTrue, _⟩
    · exact h
    · rw [hact] at hTrue; cases hTrue
  have hfilter : (st.clips.filter fun clip =>
      decide (clip.status = ClipStatus.ready) && clip.endTimeSec.isSome) = st.clips := by
    refine List.filter_eq_self.2 fun c hc => ?_
    have h1 := hall c hc
    have h2 := ((hInv.wf c hc).2.2.2).1 h1
    simp [h1, h2]
  unfold lastReadyClipEndTimeSec
  rw [hfilter]
  cases hgl : st.clips.getLast? with
  | none =>
      left
      refine ⟨List.getLast?_eq_none_iff.1 hgl, ?_⟩
      dsimp only
      rw [hgl]
  | some x =>
      right
      have hdecomp : st.clips.dropLast ++ [x] = st.clips :=
        List.dropLast_append_getLast? x hgl
      have hmem : x ∈ st.clips := by
        rw [← hdecomp]
        simp
      have hx := hInv.wf x hmem
      obtain ⟨e, he⟩ := Option.isSome_iff_exists.1 (hx.2.2.2.1 (hall x hmem))
      refine ⟨e, ?_, ?_, ?_⟩
      · dsimp only
        rw [hgl]
        exact he
      · have : clipHi x = e := by simp [clipHi, he]
        rw [← this]
        exact hx.2.2.1
      · intro c hc
        have hhi : clipHi x = e := by simp [clipHi, he]
        rw [← hdecomp] at hc
        rcases List.mem_append.1 hc with hin | hin
        · have hpair := List.pairwise_append.1 (hdecomp ▸ hInv.chain)
          have h1 := hpair.2.2 c hin x (by simp)
          rw [← hhi]
          exact le_trans h1 hx.1
        · have : c = x := by simpa using hin
          rw [this, ← hhi]

theorem inv_push_recording (st' base : AppState) (hbase : Inv base)
    (hact : base.recordingActive = false) (tid : ℕ) (startSec : ℚ)
    (hclips : st'.clips = base.clips ++
      [⟨base.nextClipIndex, tid, jsToFixed 3 startSec, Option.none, 0, ClipStatus.recording,
        false, false, Option.none⟩])
    (hnext : st'.nextClipIndex = base.nextClipIndex + 1)
    (hra : st'.recordingActive = true)
    (hrc : st'.recordingClipId = some base.nextClipIndex)
    (hl : st'.isLooping = false)
    (hbound : ∀ c ∈ base.clips, clipHi c ≤ jsToFixed 3 startSec) :
    Inv st' := by
  have hallready : ∀ c ∈ base.clips, c.status = ClipStatus.ready := by
    rcases hbase.recCase with ⟨_, _, h⟩ | ⟨hTrue, _⟩
    · exact h
    · rw [hact] at hTrue; cases hTrue
  refine ⟨?_, ?_, ?_, ?_, ?_, hl⟩
  · rw [hclips]
    refine List.pairwise_append.2 ⟨hbase.chain, by simp, ?_⟩
    intro a ha b hb
    have : b = ⟨base.nextClipIndex, tid, jsToFixed 3 startSec, Option.none, 0,
        ClipStatus.recording, false, false, Option.none⟩ := by simpa using hb
    rw [this]
    exact hbound a ha
  · rw [hclips]
    intro c hc
    rcases List.mem_append.1 hc with hin | hin
    · exact hbase.wf c hin
    · have hc' : c = ⟨base.nextClipIndex, tid, jsToFixed 3 startSec, Option.none, 0,
          ClipStatus.recording, false, false, Option.none⟩ := by simpa using hin
      rw [hc']
      exact ⟨le_refl _, jsToFixed_decimalMult 3 startSec, jsToFixed_decimalMult 3 startSec,
        by simp [clipLo, clipHi]⟩
  · rw [hclips]
    refine List.pairwise_append.2 ⟨hbase.idsInc, by simp, ?_⟩
    intro a ha b hb
    have : b = ⟨base.nextClipIndex, tid, jsToFixed 3 startSec, Option.none, 0,
        ClipStatus.recording, false, false, Option.none⟩ := by simpa using hb
    rw [this]
    exact hbase.idBound a ha
  · rw [hclips, hnext]
    intro c hc
    rcases List.mem_append.1 hc with hin | hin
    · exact Nat.lt_succ_of_lt (hbase.idBound c hin)
    · have hc' : c = ⟨base.nextClipIndex, tid, jsToFixed 3 startSec, Option.none, 0,
          ClipStatus.recording, false, false, Option.none⟩ := by simpa using hin
      rw [hc']
      exact Nat.lt_succ_self _
  · right
    exact ⟨hra, base.clips,
      ⟨base.nextClipIndex, tid, jsToFixed 3 startSec, Option.none, 0, ClipStatus.recording,
        false, false, Option.none⟩, hclips, by rw [hrc], rfl, rfl, hallready⟩

theorem inv_startRecording (st : AppState) (t : ℚ) (hInv : Inv st) :
    Inv (startRecording st t).1 := by
  unfold startRecording
  split
  · exact hInv
  · split
    · exact hInv
    · next hg hctx =>
      push_neg at hg
      have hact : st.recordingActive = false := by
        have := hg.2.2
        simpa using this
      have hnl : st.isLooping = false := hInv.noLoop
      -- the optional sessionStartSec initialisation preserves the invariant
      -- and every field the rest of the function reads
      set st₀ := if st.sessionStartSec = Option.none then
          { st with sessionStartSec := some t } else st with hst₀
      have hInv₀ : Inv st₀ := by
        rw [hst₀]
        split
        · exact hInv.congr_fields rfl rfl rfl rfl rfl
        · exact hInv
      have h₀clips : st₀.clips = st.clips := by
        rw [hst₀]; split <;> rfl
      have h₀next : st₀.nextClipIndex = st.nextClipIndex := by
        rw [hst₀]; split <;> rfl
      have h₀act : st₀.recordingActive = false := by
        rw [hst₀]
        split
        · exact hact
        · exact hact
      have h₀loop : st₀.isLooping = false := by
        rw [hst₀]
        split
        · exact hnl
        · exact hnl
      dsimp only
      rw [loopRecordingStartSec_none st₀ t h₀loop]
      dsimp only [Option.isSome]
      rw [if_neg (by simp : ¬(false = true))]
      unfold getTrackForRecordingStart
      obtain ⟨tr, htr⟩ := getTrackForTimeRange_snd st₀ t (getRecordingStartSec st₀ t)
        (getRecordingStartSec st₀ t + OVERLAP_EPSILON) Option.none
      rw [htr]
      refine inv_push_recording _ st₀ hInv₀ h₀act _ (getRecordingStartSec st₀ t) rfl rfl rfl rfl
        h₀loop ?_
      -- the new clip starts at (the 3-decimal rounding of) the last ready end,
      -- which bounds every stored interval
      rw [h₀clips]
      unfold getRecordingStartSec
      rw [loopRecordingStartSec_none st₀ t h₀loop]
      have hlast : lastReadyClipEndTimeSec st₀ = lastReadyClipEndTimeSec st := by
        unfold lastReadyClipEndTimeSec
        rw [h₀clips]
      rw [hlast]
      rcases lastReady_inactive_spec st hInv hact with ⟨hempty, hnone⟩ | ⟨e, hsome, hdm, hbound⟩
      · rw [hnone]
        intro c hc
        rw [hempty] at hc
        cases hc
      · rw [hsome]
        intro c hc
        rw [jsToFixed_eq_self 3 e hdm]
        exact hbound c hc

theorem find?_by_id_last {pre : List Clip} {x : Clip} (h : ∀ c ∈ pre, c.id ≠ x.id) :
    (pre ++ [x]).find? (fun clip => decide (clip.id = x.id)) = some x := by
  induction pre with
  | nil => simp [List.find?]
  | cons c cs ih =>
      have hc : c.id ≠ x.id := h c (by simp)
      rw [List.cons_append, List.find?_cons_of_neg _ (by simpa using hc)]
      exact ih fun c hc => h c (by simp [hc])

theorem map_if_id_last {pre : List Clip} {x u : Clip} (h : ∀ c ∈ pre, c.id ≠ x.id) :
    ((pre ++ [x]).map fun c => if c.id = x.id then u else c) = pre ++ [u] := by
  induction pre with
  | nil => simp
  | cons c cs ih =>
      have hc : c.id ≠ x.id := h c (by simp)
      rw [List.cons_append, List.map_cons, if_neg hc, List.cons_append]
      rw [ih fun c hc => h c (by simp [hc])]

theorem filter_ne_id_last {pre : List Clip} {x : Clip} (h : ∀ c ∈ pre, c.id ≠ x.id) :
    ((pre ++ [x]).filter fun clip => decide (clip.id ≠ x.id)) = pre := by
  induction pre with
  | nil => simp
  | cons c cs ih =>
      have hc : c.id ≠ x.id := h c (by simp)
      rw [List.cons_append, List.filter_cons_of_pos (by simpa using hc)]
      rw [ih fun c hc => h c (by simp [hc])]

/-- Under the invariant, `finalizeRecording`'s target is always the last
clip in the registry. -/
theorem finalizeTarget_inv (st : AppState) (hInv : Inv st) :
    finalizeTarget st = st.clips.getLast? := by
  unfold finalizeTarget getClipById
  rcases hInv.recCase with ⟨_, hrc, _⟩ | ⟨_, pre, l, hdecomp, hrc, _, _, _⟩
  · rw [hrc]
  · rw [hrc]
    have hids : ∀ c ∈ pre, c.id ≠ l.id := by
      intro c hc
      have hpair := List.pairwise_append.1 (hdecomp ▸ hInv.idsInc)
      exact Nat.ne_of_lt (hpair.2.2 c hc l (by simp))
    rw [hdecomp]
    dsimp only
    rw [find?_by_id_last hids, List.getLast?_concat]

/-- The target: every clip before the last one is ready, with a distinct
smaller id. -/
theorem last_decomp (st : AppState) (hInv : Inv st) (x : Clip)
    (hgl : st.clips.getLast? = some x) :
    st.clips = st.clips.dropLast ++ [x] ∧
      (∀ c ∈ st.clips.dropLast, c.status = ClipStatus.ready) ∧
      ∀ c ∈ st.clips.dropLast, c.id ≠ x.id := by
  have hdecomp : st.clips.dropLast ++ [x] = st.clips :=
    List.dropLast_append_getLast? x hgl
  refine ⟨hdecomp.symm, ?_, ?_⟩
  · intro c hc
    rcases hInv.recCase with ⟨_, _, hall⟩ | ⟨_, pre, l, hd, _, _, _, hpre⟩
    · exact hall c (by rw [← hdecomp]; exact List.mem_append_left _ hc)
    · have hpre_eq : st.clips.dropLast = pre := by
        rw [hd, List.dropLast_concat]
      exact hpre c (hpre_eq ▸ hc)
  · intro c hc
    have hpair := List.pairwise_append.1 (hdecomp.symm ▸ hInv.idsInc)
    exact Nat.ne_of_lt (hpair.2.2 c hc x (by simp))

/-- `assignClipToNonOverlappingTrack` only rewrites track assignments: the
clip list is the original one with (at most) new `trackId`s, and the
recording bookkeeping fields are untouched. -/
theorem assign_clips_track_only (st : AppState) (t : ℚ) (clip : Clip) :
    ∃ f : Clip → ℕ,
      (assignClipToNonOverlappingTrack st t clip).clips =
          st.clips.map (fun c => { c with trackId := f c })
        ∧ (assignClipToNonOverlappingTrack st t clip).recordingActive = st.recordingActive
        ∧ (assignClipToNonOverlappingTrack st t clip).recordingClipId = st.recordingClipId
        ∧ (assignClipToNonOverlappingTrack st t clip).nextClipIndex = st.nextClipIndex
        ∧ (assignClipToNonOverlappingTrack st t clip).isLooping = st.isLooping := by
  have hid : ∀ (s : AppState), s.clips.map (fun c => { c with trackId := c.trackId }) = s.clips :=
    fun s => List.map_id' s.clips
  unfold assignClipToNonOverlappingTrack
  cases hend : clip.endTimeSec with
  | none => exact ⟨fun c => c.trackId, (hid st).symm, rfl, rfl, rfl, rfl⟩
  | some e =>
      dsimp only
      split
      · exact ⟨fun c => c.trackId, (hid st).symm, rfl, rfl, rfl, rfl⟩
      · split
        · exact ⟨fun c => c.trackId, (hid st).symm, rfl, rfl, rfl, rfl⟩
        · obtain ⟨tr, htr⟩ := getTrackForTimeRange_snd st t clip.startTimeSec e (some clip.id)
          rw [htr]
          split
          · refine ⟨fun c => if c.id = clip.id then
              (getTrackForTimeRange st t clip.startTimeSec e (some clip.id)).1
                else c.trackId, ?_, rfl, rfl, rfl, rfl⟩
            dsimp only
            refine List.map_congr_left fun c hc => ?_
            split
            · rfl
            · rfl
          · exact ⟨fun c => c.trackId, (hid _).symm, rfl, rfl, rfl, rfl⟩

theorem chain_map_track {l : List Clip} {f : Clip → ℕ}
    (h : l.Pairwise fun a b => clipHi a ≤ clipLo b) :
    (l.map fun c => { c with trackId := f c }).Pairwise fun a b => clipHi a ≤ clipLo b :=
  h.map _ fun _ _ hab => hab

theorem ids_map_track {l : List Clip} {f : Clip → ℕ}
    (h : l.Pairwise fun a b => a.id < b.id) :
    (l.map fun c => { c with trackId := f c }).Pairwise fun a b => a.id < b.id :=
  h.map _ fun _ _ hab => hab

theorem wf_map_track {l : List Clip} {f : Clip → ℕ} (h : ∀ c ∈ l, ClipWF c) :
    ∀ c ∈ l.map fun c => { c with trackId := f c }, ClipWF c := by
  intro c hc
  obtain ⟨c₀, hc₀, rfl⟩ := List.mem_map.1 hc
  exact h c₀ hc₀

theorem ready_map_track {l : List Clip} {f : Clip → ℕ}
    (h : ∀ c ∈ l, c.status = ClipStatus.ready) :
    ∀ c ∈ l.map fun c => { c with trackId := f c }, c.status = ClipStatus.ready := by
  intro c hc
  obtain ⟨c₀, hc₀, rfl⟩ := List.mem_map.1 hc
  exact h c₀ hc₀

theorem bound_map_track {l : List Clip} {f : Clip → ℕ} {n : ℕ} (h : ∀ c ∈ l, c.id < n) :
    ∀ c ∈ l.map fun c => { c with trackId := f c }, c.id < n := by
  intro c hc
  obtain ⟨c₀, hc₀, rfl⟩ := List.mem_map.1 hc
  exact h c₀ hc₀

/-- The success path of `finalizeRecording` preserves the registry
invariant, for any nonnegative `toFixed(2)`-rounded duration. -/
theorem inv_finalize_core (st : AppState) (t D : ℚ) (target : Clip)
    (hInv : Inv st) (hgl : st.clips.getLast? = some target)
    (hD0 : 0 ≤ D) (hD2 : DecimalMult 2 D) :
    Inv { assignClipToNonOverlappingTrack
        { st with clips := st.clips.map fun c =>
            if c.id = target.id then finalizedClip target D else c }
        t (finalizedClip target D) with
      recordingActive := false, recordingClipId := Option.none,
      selectedClipId := some (finalizedClip target D).id } := by
  obtain ⟨hdec, hready, hids⟩ := last_decomp st hInv target hgl
  have hmap : (st.clips.map fun c => if c.id = target.id then finalizedClip target D else c)
      = st.clips.dropLast ++ [finalizedClip target D] := by
    conv_lhs => rw [hdec]
    exact map_if_id_last hids
  rw [hmap]
  obtain ⟨f, hclips, hact, hrcid, hnext, hloop⟩ :=
    assign_clips_track_only
      { st with clips := st.clips.dropLast ++ [finalizedClip target D] } t
      (finalizedClip target D)
  have hprechain := List.pairwise_append.1 (hdec ▸ hInv.chain)
  have hpreids := List.pairwise_append.1 (hdec ▸ hInv.idsInc)
  have hchainU : (st.clips.dropLast ++ [finalizedClip target D]).Pairwise
      fun a b => clipHi a ≤ clipLo b := by
    refine List.pairwise_append.2 ⟨hprechain.1, List.pairwise_singleton _ _, ?_⟩
    intro c hc u hu
    rw [List.mem_singleton] at hu
    subst hu
    exact hprechain.2.2 c hc target (by simp)
  have hidsU : (st.clips.dropLast ++ [finalizedClip target D]).Pairwise
      fun a b => a.id < b.id := by
    refine List.pairwise_append.2 ⟨hpreids.1, List.pairwise_singleton _ _, ?_⟩
    intro c hc u hu
    rw [List.mem_singleton] at hu
    subst hu
    exact hpreids.2.2 c hc target (by simp)
  have htmem : target ∈ st.clips := by
    rw [hdec]
    exact List.mem_append_right _ (by simp)
  have htargetWF : ClipWF target := hInv.wf target htmem
  have hsum3 : DecimalMult 3 (target.startTimeSec + D) :=
    decimalMult_add 3 _ _ htargetWF.2.1 (decimalMult_mono 2 3 D (by norm_num) hD2)
  have hEeq : jsToFixed 3 (target.startTimeSec + D) = target.startTimeSec + D :=
    jsToFixed_eq_self 3 _ hsum3
  have hfinWF : ClipWF (finalizedClip target D) := by
    refine ⟨?_, htargetWF.2.1, jsToFixed_decimalMult 3 _, ?_⟩
    · show target.startTimeSec ≤ jsToFixed 3 (target.startTimeSec + D)
      rw [hEeq]
      linarith
    · exact ⟨fun _ => rfl, fun _ => rfl⟩
  have hwfU : ∀ c ∈ st.clips.dropLast ++ [finalizedClip target D], ClipWF c := by
    intro c hc
    rcases List.mem_append.1 hc with hc | hc
    · exact hInv.wf c (by rw [hdec]; exact List.mem_append_left _ hc)
    · rw [List.mem_singleton] at hc
      subst hc
      exact hfinWF
  have hboundU : ∀ c ∈ st.clips.dropLast ++ [finalizedClip target D],
      c.id < st.nextClipIndex := by
    intro c hc
    rcases List.mem_append.1 hc with hc | hc
    · exact hInv.idBound c (by rw [hdec]; exact List.mem_append_left _ hc)
    · rw [List.mem_singleton] at hc
      subst hc
      exact hInv.idBound target htmem
  have hreadyU : ∀ c ∈ st.clips.dropLast ++ [finalizedClip target D],
      c.status = ClipStatus.ready := by
    intro c hc
    rcases List.mem_append.1 hc with hc | hc
    · exact hready c hc
    · rw [List.mem_singleton] at hc
      subst hc
      rfl
  refine ⟨?_, ?_, ?_, ?_, Or.inl ⟨rfl, rfl, ?_⟩, ?_⟩
  · dsimp only
    rw [hclips]
    exact chain_map_track hchainU
  · dsimp only
    rw [hclips]
    exact wf_map_track hwfU
  · dsimp only
    rw [hclips]
    exact ids_map_track hidsU
  · dsimp only
    rw [hclips, hnext]
    exact bound_map_track hboundU
  · dsimp only
    rw [hclips]
    exact ready_map_track hreadyU
  · dsimp only
    rw [hloop]
    exact hInv.noLoop

/-- A successful `finalizeRecording` (decode resolves) preserves the
registry invariant. -/
theorem inv_finalizeOk (st : AppState) (t d : ℚ) (hInv : Inv st) :
    Inv (finalizeRecording st t (some d)).1 := by
  unfold finalizeRecording
  rw [finalizeTarget_inv st hInv]
  cases hgl : st.clips.getLast? with
  | none =>
      exact ⟨hInv.chain, hInv.wf, hInv.idsInc, hInv.idBound,
        Or.inl ⟨rfl, rfl, fun c hc => by
          rw [List.getLast?_eq_none_iff.1 hgl] at hc
          simp at hc⟩,
        hInv.noLoop⟩
  | some target =>
      dsimp only
      rw [if_neg (by rw [hInv.noLoop]; exact Bool.false_ne_true)]
      refine inv_finalize_core st t _ target hInv hgl (jsToFixed_nonneg 2 _ ?_)
        (jsToFixed_decimalMult 2 _)
      have hraw : 0 ≤ max (max 0 (nowMsOf t - st.recordingStart) / 1000) d :=
        le_max_of_le_left (div_nonneg (le_max_left _ _) (by norm_num))
      cases target.maxDurationSec with
      | none => exact hraw
      | some m =>
          dsimp only
          split
          · next hm => exact le_min hraw (le_of_lt hm)
          · exact hraw

/-- A failed `finalizeRecording` (decode rejects: the clip is dropped and
the flags reset) preserves the registry invariant. -/
theorem inv_finalizeFail (st : AppState) (t : ℚ) (hInv : Inv st) :
    Inv (finalizeRecording st t Option.none).1 := by
  unfold finalizeRecording
  rw [finalizeTarget_inv st hInv]
  cases hgl : st.clips.getLast? with
  | none =>
      exact ⟨hInv.chain, hInv.wf, hInv.idsInc, hInv.idBound,
        Or.inl ⟨rfl, rfl, fun c hc => by
          rw [List.getLast?_eq_none_iff.1 hgl] at hc
          simp at hc⟩,
        hInv.noLoop⟩
  | some target =>
      obtain ⟨hdec, hready, hids⟩ := last_decomp st hInv target hgl
      dsimp only
      have hfilter : (st.clips.filter fun clip => decide (clip.id ≠ target.id))
          = st.clips.dropLast := by
        conv_lhs => rw [hdec]
        exact filter_ne_id_last hids
      rw [hfilter]
      have hprechain := List.pairwise_append.1 (hdec ▸ hInv.chain)
      have hpreids := List.pairwise_append.1 (hdec ▸ hInv.idsInc)
      refine ⟨hprechain.1, ?_, hpreids.1, ?_, Or.inl ⟨rfl, rfl, hready⟩, hInv.noLoop⟩
      · intro c hc
        exact hInv.wf c (by rw [hdec]; exact List.mem_append_left _ hc)
      · intro c hc
        exact hInv.idBound c (by rw [hdec]; exact List.mem_append_left _ hc)

/-- The initial state satisfies the registry invariant. -/
theorem inv_init : Inv initialState :=
  ⟨List.Pairwise.nil, fun c hc => by simp [initialState] at hc,
    List.Pairwise.nil, fun c hc => by simp [initialState] at hc,
    Or.inl ⟨rfl, rfl, fun c hc => by simp [initialState] at hc⟩, rfl⟩

/-- Every state reachable by record/finalize sequences satisfies the
registry invariant. -/
theorem inv_reachable (st : AppState) (h : RecordReachable st) : Inv st := by
  induction h with
  | init => exact inv_init
  | startRec st t _ ih => exact inv_startRecording st t ih
  | finalizeOk st t d _ _ ih => exact inv_finalizeOk st t d ih
  | finalizeFail st t _ ih => exact inv_finalizeFail st t ih

theorem overlap_probe_eps : intervalsOverlap 0 OVERLAP_EPSILON 0 0 = false :=
  intervalsOverlap_false_of fun h => absurd h.1 (lt_irrefl 0)

theorem overlap_probe_eps' : intervalsOverlap 0 (0 + OVERLAP_EPSILON) 0 0 = false :=
  intervalsOverlap_false_of fun h => absurd h.1 (lt_irrefl 0)

theorem evalA : (startRecording initialState 0).1 = stA := by
  simp [startRecording, initialState, stA, recClip1, getRecordingStartSec,
    loopRecordingStartSec, lastReadyClipEndTimeSec, nowSessionSec, nowMsOf,
    getTrackForRecordingStart, getTrackForTimeRange, hasTimeOverlap, jsToFixed_zero]

theorem evalB : (finalizeRecording stA 0 (some 0)).1 = stB := by
  simp [finalizeRecording, finalizeTarget, getClipById, stA, stB, recClip1, readyClip1,
    nowMsOf, jsToFixed_zero, assignClipToNonOverlappingTrack, getTrackForTimeRange,
    hasTimeOverlap, nowSessionSec, clipIntervalAtTime, initialState]

theorem evalC : (startRecording stB 0).1 = stC := by
  simp [startRecording, stA, stB, stC, recClip1, readyClip1, recClip2, initialState,
    getRecordingStartSec, loopRecordingStartSec, lastReadyClipEndTimeSec, nowSessionSec,
    nowMsOf, getTrackForRecordingStart, getTrackForTimeRange, hasTimeOverlap,
    clipIntervalAtTime, jsToFixed_zero, overlap_probe_eps, overlap_probe_eps']

theorem reach_stC : RecordReachable stC := by
  have h1 := RecordReachable.startRec initialState 0 RecordReachable.init
  rw [evalA] at h1
  have h2 := RecordReachable.finalizeOk stA 0 0 le_rfl h1
  rw [evalB] at h2
  have h3 := RecordReachable.startRec stB 0 h2
  rw [evalC] at h3
  exact h3

/-! ## Claim C1 — same-track clips never overlap -/

/-- C1: in every state reachable by any sequence of `startRecording` /
`finalizeRecording` operations, any two distinct registry clips assigned to
the same track have non-overlapping effective time intervals under the
half-open overlap test `aStart < bEnd && aEnd > bStart`, where the
effective interval of a ready clip is `[startTimeSec, endTimeSec)` and that
of a live recording is `[startTimeSec, now)`, evaluated at any instant. -/
theorem record_track_nonoverlap (st : AppState) (h : RecordReachable st)
    (t : ℚ) (i j : ℕ) (c1 c2 : Clip) (hne : i ≠ j)
    (h1 : st.clips[i]? = some c1) (h2 : st.clips[j]? = some c2)
    (_htrack : c1.trackId = c2.trackId) :
    intervalsOverlap
      (clipIntervalAtTime st c1 (nowSessionSec st t)).1
      (clipIntervalAtTime st c1 (nowSessionSec st t)).2
      (clipIntervalAtTime st c2 (nowSessionSec st t)).1
      (clipIntervalAtTime st c2 (nowSessionSec st t)).2 = false :=
  inv_no_overlap st (inv_reachable st h) (nowSessionSec st t) i j c1 c2 hne h1 h2

/-- C1 witness: on the concrete trace record → finalize → record (all at
`t = 0`), the finalized clip and the second live recording share track 1 and
their intervals do not overlap at evaluation time `t = 5`. -/
theorem record_track_nonoverlap_witness :
    stC.clips[0]? = some readyClip1 ∧ stC.clips[1]? = some recClip2 ∧
      readyClip1.trackId = recClip2.trackId ∧
      intervalsOverlap
        (clipIntervalAtTime stC readyClip1 (nowSessionSec stC 5)).1
        (clipIntervalAtTime stC readyClip1 (nowSessionSec stC 5)).2
        (clipIntervalAtTime stC recClip2 (nowSessionSec stC 5)).1
        (clipIntervalAtTime stC recClip2 (nowSessionSec stC 5)).2 = false :=
  ⟨rfl, rfl, rfl,
    record_track_nonoverlap stC reach_stC 5 0 1 readyClip1 recClip2
      (by decide) rfl rfl rfl⟩

/-! ## Claim C5 — finalize success path -/

theorem jsToFixed_2_1111 : jsToFixed 2 (1111 / 1000) = 111 / 100 := by
  unfold jsToFixed
  rw [show ⌊(1111 : ℚ) / 1000 * 10 ^ 2 + 1 / 2⌋ = (111 : ℤ) from by
    rw [Int.floor_eq_iff]
    norm_num]
  norm_num

theorem jsToFixed_3_111 : jsToFixed 3 (111 / 100) = 111 / 100 :=
  jsToFixed_eq_self 3 _ ⟨1110, by norm_num⟩

/-- C5 (amended): when the decode resolves, `finalizeRecording` finalizes the
target clip with `duration = Number(min(max(elapsedSec, decodedSec), cap).toFixed(2))`
(the cap applying only when `maxDurationSec` is set positive),
`endTimeSec = Number((startTimeSec + duration).toFixed(3))` — both with the
`toFixed` roundings the original claim omits — flips the status to `ready`,
and (looping off) re-runs the non-overlap track assignment on the updated
registry before resetting the recording flags. -/
theorem finalize_success_fields (st : AppState) (t d : ℚ) (target : Clip)
    (htarget : finalizeTarget st = some target) :
    ∃ updated : Clip,
      (finalizeRecording st t (some d)).2 = FinalizeOutcome.finalized updated
      ∧ updated.duration = jsToFixed 2
          (match target.maxDurationSec with
            | some m =>
                if 0 < m then min (max (max 0 (nowMsOf t - st.recordingStart) / 1000) d) m
                else max (max 0 (nowMsOf t - st.recordingStart) / 1000) d
            | Option.none => max (max 0 (nowMsOf t - st.recordingStart) / 1000) d)
      ∧ updated.endTimeSec = some (jsToFixed 3 (target.startTimeSec + updated.duration))
      ∧ updated.status = ClipStatus.ready
      ∧ updated.startTimeSec = target.startTimeSec
      ∧ updated.id = target.id
      ∧ updated.hasBuffer = true
      ∧ (st.isLooping = false →
          (finalizeRecording st t (some d)).1 =
            { assignClipToNonOverlappingTrack
                { st with clips := st.clips.map fun c =>
                    if c.id = target.id then updated else c }
                t updated with
              recordingActive := false, recordingClipId := Option.none,
              selectedClipId := some updated.id }) := by
  unfold finalizeRecording
  rw [htarget]
  dsimp only
  refine ⟨_, rfl, rfl, rfl, rfl, rfl, rfl, rfl, fun hloop => ?_⟩
  rw [if_neg (by rw [hloop]; exact Bool.false_ne_true)]

/-- C5 witness: the amended theorem instantiated on the concrete
one-recording state `stA` at `t = 7` with decoded duration `2`. -/
theorem finalize_success_fields_witness :
    finalizeTarget stA = some recClip1
    ∧ ∃ updated : Clip,
      (finalizeRecording stA 7 (some 2)).2 = FinalizeOutcome.finalized updated
      ∧ updated.duration = jsToFixed 2
          (match recClip1.maxDurationSec with
            | some m =>
                if 0 < m then min (max (max 0 (nowMsOf 7 - stA.recordingStart) / 1000) 2) m
                else max (max 0 (nowMsOf 7 - stA.recordingStart) / 1000) 2
            | Option.none => max (max 0 (nowMsOf 7 - stA.recordingStart) / 1000) 2)
      ∧ updated.endTimeSec = some (jsToFixed 3 (recClip1.startTimeSec + updated.duration))
      ∧ updated.status = ClipStatus.ready
      ∧ updated.startTimeSec = recClip1.startTimeSec
      ∧ updated.id = recClip1.id
      ∧ updated.hasBuffer = true
      ∧ (stA.isLooping = false →
          (finalizeRecording stA 7 (some 2)).1 =
            { assignClipToNonOverlappingTrack
                { stA with clips := stA.clips.map fun c =>
                    if c.id = recClip1.id then updated else c }
                7 updated with
              recordingActive := false, recordingClipId := Option.none,
              selectedClipId := some updated.id }) :=
  ⟨rfl, finalize_success_fields stA 7 2 recClip1 rfl⟩

/-- C5 counterexample: recording for 1.111 s of wall clock (decoded duration
0) stores duration `1.11` — the `toFixed(2)` rounding of the claimed
`min`/`max` formula value `1.111`, not that value itself. -/
theorem finalize_duration_counterexample :
    (finalizeRecording stA (1111 / 1000) (some 0)).1.clips.map Clip.duration = [111 / 100]
    ∧ max (max 0 (nowMsOf (1111 / 1000) - stA.recordingStart) / 1000) 0 = 1111 / 1000
    ∧ (111 / 100 : ℚ) ≠ 1111 / 1000 := by
  refine ⟨?_, ?_, by norm_num⟩
  · norm_num [finalizeRecording, finalizeTarget, getClipById, stA, recClip1, initialState,
      nowMsOf, assignClipToNonOverlappingTrack, getTrackForTimeRange, hasTimeOverlap,
      nowSessionSec, clipIntervalAtTime, jsToFixed_2_1111, jsToFixed_3_111, max_def]
  · norm_num [nowMsOf, stA, initialState, max_def]

/-! ## Claim C8 — decode failure cleanup -/

/-- C8 (confirmed): when the decode rejects, `finalizeRecording` takes the
catch branch: the outcome surfaces the failure, the registry equals the old
registry with every clip carrying the offending id filtered out (no
partially-ready remnant; every other clip survives unchanged), the
recording-active flag and recording-clip reference are reset, and the track
list is untouched. -/
theorem finalize_decode_failure (st : AppState) (t : ℚ) (target : Clip)
    (htarget : finalizeTarget st = some target) :
    (finalizeRecording st t Option.none).2 = FinalizeOutcome.decodeFailed
    ∧ (finalizeRecording st t Option.none).1.clips =
        st.clips.filter (fun c => decide (c.id ≠ target.id))
    ∧ (∀ c ∈ (finalizeRecording st t Option.none).1.clips, c.id ≠ target.id)
    ∧ (∀ c ∈ st.clips, c.id ≠ target.id → c ∈ (finalizeRecording st t Option.none).1.clips)
    ∧ (finalizeRecording st t Option.none).1.recordingActive = false
    ∧ (finalizeRecording st t Option.none).1.recordingClipId = Option.none
    ∧ (finalizeRecording st t Option.none).1.tracks = st.tracks := by
  unfold finalizeRecording
  rw [htarget]
  dsimp only
  refine ⟨rfl, rfl, ?_, ?_, rfl, rfl, rfl⟩
  · intro c hc
    have := List.of_mem_filter hc
    simpa using this
  · intro c hc hne
    exact List.mem_filter.2 ⟨hc, by simpa using hne⟩

/-- C8 witness: the cleanup instantiated on the one-recording state `stA`
(target clip id 1) at `t = 0`. -/
theorem finalize_decode_failure_witness :
    finalizeTarget stA = some recClip1
    ∧ (finalizeRecording stA 0 Option.none).2 = FinalizeOutcome.decodeFailed
    ∧ (finalizeRecording stA 0 Option.none).1.clips =
        stA.clips.filter (fun c => decide (c.id ≠ recClip1.id))
    ∧ (∀ c ∈ (finalizeRecording stA 0 Option.none).1.clips, c.id ≠ recClip1.id)
    ∧ (∀ c ∈ stA.clips, c.id ≠ recClip1.id →
        c ∈ (finalizeRecording stA 0 Option.none).1.clips)
    ∧ (finalizeRecording stA 0 Option.none).1.recordingActive = false
    ∧ (finalizeRecording stA 0 Option.none).1.recordingClipId = Option.none
    ∧ (finalizeRecording stA 0 Option.none).1.tracks = stA.tracks :=
  ⟨rfl, finalize_decode_failure stA 0 recClip1 rfl⟩

/-! ## Claim C4 — pause/resume offset preservation -/

/-- The session-path behaviour of `resumePlayback` on a paused,
non-looping state: the source restarts with `createTransport`'s
`safeOffset`, the stored paused offset clamped to
`[0, max(0, duration − 1e-6)]`. -/
theorem resume_paused_session (q : AppState) (t₂ : ℚ) (buffer : BufMeta) (s0 len : ℚ)
    (h1 : q.isPlaybackPaused = true) (h2 : q.isPlaybackPlaying = false)
    (h3 : q.isLooping = false) (h4 : q.playback.sourceActive = false)
    (h5 : q.audioContextReady = true)
    (hbuf : buildSessionPlaybackBuffer q = some (buffer, s0, len))
    (hbdur : buffer.duration ≠ 0) :
    (resumePlayback q t₂).2 = true
    ∧ (resumePlayback q t₂).1.playback.startOffset
        = clamp q.playbackPausedOffset 0 (max 0 (buffer.duration - 1 / 1000000)) := by
  obtain ⟨r, hct1, hct2⟩ : ∃ r : AppState,
      createTransport q t₂ (some buffer)
        { clipId := Option.none, offset := q.playbackPausedOffset, loop := false,
          loopStart := 0, loopEnd := buffer.duration, baseStartSec := s0,
          mode := TransportMode.session, preserveLoopingState := false }
        = (r, true)
      ∧ r.playback.startOffset
          = clamp q.playbackPausedOffset 0 (max 0 (buffer.duration - 1 / 1000000)) :=
    ⟨_, by
      unfold createTransport
      dsimp only
      rw [if_neg (by simp [h5, hbdur])]
      rw [if_neg Bool.false_ne_true]
      exact ⟨rfl, rfl⟩⟩
  have hst : stopTransport q StopReason.replace = q := by
    unfold stopTransport
    rw [if_pos (by simp [h4])]
  unfold resumePlayback
  rw [if_neg (by simp [h1, h2])]
  dsimp only
  rw [h3, Bool.false_and, if_neg Bool.false_ne_true, hst, hbuf]
  dsimp only
  rw [hct1]
  dsimp only
  rw [if_pos rfl]
  exact ⟨rfl, hct2⟩

/-- C4 (amended): for a playing session transport, pausing records the
pause-command offset; when the faded-out source's `onended` fires at the
same instant the pause flag is set with that offset preserved; and resuming
restarts the source at that offset **clamped to
`[0, max(0, duration − 1e-6)]`** (`createTransport`'s `safeOffset`), which
equals the recorded offset exactly only when it lies at least `1e-6` below
the buffer duration — not unconditionally as claimed. -/
theorem pause_resume_offset_amended (st : AppState) (t t₂ : ℚ) (buffer : BufMeta)
    (s0 len : ℚ)
    (hplay : st.isPlaybackPlaying = true)
    (hsrc : st.playback.sourceActive = true)
    (hctx : st.audioContextReady = true)
    (hdur : st.playback.duration ≠ 0)
    (hpres : st.playback.preserveLoopingState = false)
    (hbuf : buildSessionPlaybackBuffer (transportOnEnded (pausePlayback st t).1 t)
        = some (buffer, s0, len))
    (hbdur : buffer.duration ≠ 0) :
    (transportOnEnded (pausePlayback st t).1 t).isPlaybackPaused = true
    ∧ (transportOnEnded (pausePlayback st t).1 t).playbackPausedOffset
        = currentPlaybackOffset st t
    ∧ (resumePlayback (transportOnEnded (pausePlayback st t).1 t) t₂).2 = true
    ∧ (resumePlayback (transportOnEnded (pausePlayback st t).1 t) t₂).1.playback.startOffset
        = clamp (currentPlaybackOffset st t) 0 (max 0 (buffer.duration - 1 / 1000000))
    ∧ (0 ≤ currentPlaybackOffset st t →
        currentPlaybackOffset st t ≤ buffer.duration - 1 / 1000000 →
        (resumePlayback (transportOnEnded (pausePlayback st t).1 t) t₂).1.playback.startOffset
          = currentPlaybackOffset st t) := by
  have hpause : (pausePlayback st t).1
      = { st with
          playbackPausedOffset := currentPlaybackOffset st t,
          playback := { st.playback with manualStopReason := StopReason.pause } } := by
    unfold pausePlayback
    rw [if_neg (by simp [hplay, hsrc])]
    dsimp only
    unfold stopTransport
    rw [if_neg (by simp [hsrc])]
  have hoffeq : currentPlaybackOffset
      { st with
        playbackPausedOffset := currentPlaybackOffset st t,
        playback := { st.playback with manualStopReason := StopReason.pause } } t
      = currentPlaybackOffset st t := by
    simp only [currentPlaybackOffset, getClipById]
    simp [hsrc, hctx, hdur]
  obtain ⟨ph, hQ⟩ : ∃ ph : ℚ, transportOnEnded (pausePlayback st t).1 t
      = { st with
          playback := { st.playback with
            sourceActive := false
            manualStopReason := StopReason.noReason }
          isPlaybackPlaying := false
          isPlaybackPaused := true
          playbackPausedOffset := currentPlaybackOffset st t
          isLooping := st.playback.preserveLoopingState
          playbackPlayheadSec := ph } :=
    ⟨_, by
      rw [hpause]
      unfold transportOnEnded
      rw [if_neg (by simp [hsrc])]
      dsimp only
      rw [if_pos rfl, hoffeq]⟩
  obtain ⟨hr2, hso'⟩ := resume_paused_session
    (transportOnEnded (pausePlayback st t).1 t) t₂ buffer s0 len
    (by rw [hQ]) (by rw [hQ]) (by rw [hQ]; exact hpres) (by rw [hQ])
    (by rw [hQ]; exact hctx) hbuf hbdur
  have hso : (resumePlayback (transportOnEnded (pausePlayback st t).1 t) t₂).1.playback.startOffset
      = clamp (currentPlaybackOffset st t) 0 (max 0 (buffer.duration - 1 / 1000000)) := by
    rw [hso', hQ]
  refine ⟨by rw [hQ], by rw [hQ], hr2, hso, fun h0 h1 => ?_⟩
  rw [hso]
  exact clamp_of_mem _ _ _ h0 (le_trans h1 (le_max_right 0 _))

theorem dec_lt_01 : decide ((0 : ℚ) < 1) = true :=
  decide_eq_true (by norm_num)

theorem jsRound_48000 : jsRound 48000 = 48000 := by
  unfold jsRound
  rw [show (48000 : ℚ) + 1 / 2 = ((48000 : ℤ) : ℚ) + 1 / 2 by norm_num, Int.floor_int_add]
  norm_num

theorem eval_buildSession_stPlay : buildSessionPlaybackBuffer stPlay = some (bufD, 0, 1) := by
  norm_num [buildSessionPlaybackBuffer, getReadyClipsWithTime, stPlay, readyClipD,
    initialState, minList, maxList, buildMixedBufferMetaForWindow, mixBufferFramesMeta,
    bufD, jsRound_48000, dec_lt_01, Option.some_ne_none]
  rfl

theorem pausePlayback_proj (st : AppState) (t : ℚ) :
    ((pausePlayback st t).1.clips = st.clips)
    ∧ ((pausePlayback st t).1.audioContextReady = st.audioContextReady)
    ∧ ((pausePlayback st t).1.ctxSampleRate = st.ctxSampleRate) := by
  unfold pausePlayback
  split
  · exact ⟨rfl, rfl, rfl⟩
  · dsimp only
    unfold stopTransport
    split
    · exact ⟨rfl, rfl, rfl⟩
    · exact ⟨rfl, rfl, rfl⟩

theorem transportOnEnded_proj (st : AppState) (t : ℚ) :
    ((transportOnEnded st t).clips = st.clips)
    ∧ ((transportOnEnded st t).audioContextReady = st.audioContextReady)
    ∧ ((transportOnEnded st t).ctxSampleRate = st.ctxSampleRate) := by
  unfold transportOnEnded
  split
  · exact ⟨rfl, rfl, rfl⟩
  · dsimp only
    refine ⟨?_, ?_, ?_⟩
    · rw [apply_ite AppState.clips]
      dsimp only
      rw [ite_self]
    · rw [apply_ite AppState.audioContextReady]
      dsimp only
      rw [ite_self]
    · rw [apply_ite AppState.ctxSampleRate]
      dsimp only
      rw [ite_self]

/-- `buildSessionPlaybackBuffer` reads only the registry, the audio-context
flag and the sample rate, all untouched by pause and the `onended`
bookkeeping. -/
theorem buildSession_pause_onended (st : AppState) (t : ℚ) :
    buildSessionPlaybackBuffer (transportOnEnded (pausePlayback st t).1 t)
      = buildSessionPlaybackBuffer st := by
  obtain ⟨h1, h2, h3⟩ := transportOnEnded_proj (pausePlayback st t).1 t
  obtain ⟨g1, g2, g3⟩ := pausePlayback_proj st t
  unfold buildSessionPlaybackBuffer getReadyClipsWithTime buildMixedBufferMetaForWindow
    mixBufferFramesMeta
  rw [h1, g1, h2, g2, h3, g3]

/-- C4 witness: the amended pause/resume relation instantiated on the
unit-clip session transport, paused half a second in (offset `0.5`, inside
the clamp range, so the resume offset is exactly the pause offset). -/
theorem pause_resume_offset_amended_witness :
    (transportOnEnded (pausePlayback stPlay (1 / 2)).1 (1 / 2)).isPlaybackPaused = true
    ∧ (transportOnEnded (pausePlayback stPlay (1 / 2)).1 (1 / 2)).playbackPausedOffset
        = currentPlaybackOffset stPlay (1 / 2)
    ∧ (resumePlayback (transportOnEnded (pausePlayback stPlay (1 / 2)).1 (1 / 2)) 3).2 = true
    ∧ (resumePlayback
          (transportOnEnded (pausePlayback stPlay (1 / 2)).1 (1 / 2)) 3).1.playback.startOffset
        = clamp (currentPlaybackOffset stPlay (1 / 2)) 0 (max 0 (bufD.duration - 1 / 1000000))
    ∧ (0 ≤ currentPlaybackOffset stPlay (1 / 2) →
        currentPlaybackOffset stPlay (1 / 2) ≤ bufD.duration - 1 / 1000000 →
        (resumePlayback
            (transportOnEnded (pausePlayback stPlay (1 / 2)).1 (1 / 2)) 3).1.playback.startOffset
          = currentPlaybackOffset stPlay (1 / 2)) :=
  pause_resume_offset_amended stPlay (1 / 2) 3 bufD 0 1 rfl rfl rfl
    (by norm_num [stPlay]) rfl
    (by rw [buildSession_pause_onended]; exact eval_buildSession_stPlay)
    (by norm_num [bufD, BufMeta.duration])

theorem eval_cur_stPlay2 : currentPlaybackOffset stPlay 2 = 1 := by
  norm_num [currentPlaybackOffset, stPlay, initialState, getClipById, clamp, max_def, min_def]

theorem evalPauseD : transportOnEnded (pausePlayback stPlay 2).1 2 = stPausedD := by
  norm_num [pausePlayback, stopTransport, transportOnEnded, currentPlaybackOffset,
    getClipById, stPlay, stPausedD, initialState, clamp, max_def, min_def]

theorem eval_buildSession_stPausedD :
    buildSessionPlaybackBuffer stPausedD = some (bufD, 0, 1) := by
  norm_num [buildSessionPlaybackBuffer, getReadyClipsWithTime, stPausedD, stPlay, readyClipD,
    initialState, minList, maxList, buildMixedBufferMetaForWindow, mixBufferFramesMeta,
    bufD, jsRound_48000, dec_lt_01, Option.some_ne_none]
  rfl

/-- C4 counterexample: pausing the unit-clip session transport at `t = 2`
records offset exactly `1` (the clamp at the full duration), but resuming
restarts the source at `0.999999` — `createTransport` clamps to
`duration − 1e-6`, so the resume offset is **not** the recorded pause
offset, contradicting the claimed exact equality. -/
theorem pause_resume_offset_counterexample :
    currentPlaybackOffset stPlay 2 = 1
    ∧ (transportOnEnded (pausePlayback stPlay 2).1 2).playbackPausedOffset = 1
    ∧ (resumePlayback (transportOnEnded (pausePlayback stPlay 2).1 2) 3).1.playback.startOffset
        = 999999 / 1000000
    ∧ (999999 / 1000000 : ℚ) ≠ 1 := by
  obtain ⟨_, hso⟩ := resume_paused_session stPausedD 3 bufD 0 1 rfl rfl rfl rfl rfl
    eval_buildSession_stPausedD (by norm_num [bufD, BufMeta.duration])
  refine ⟨eval_cur_stPlay2, ?_, ?_, by norm_num⟩
  · rw [evalPauseD]
    rfl
  · rw [evalPauseD, hso]
    norm_num [stPausedD, stPlay, bufD, BufMeta.duration, clamp, max_def, min_def]

/-! ## Claim C7 — endLoop state dependence -/

theorem createTransport_loopfields (st : AppState) (t : ℚ) (b : Option BufMeta)
    (opts : TransportOptions) :
    (createTransport st t b opts).1.loopRegionStartSec = st.loopRegionStartSec
    ∧ (createTransport st t b opts).1.loopRegionLengthSec = st.loopRegionLengthSec
    ∧ (createTransport st t b opts).1.loopMixBuffer = st.loopMixBuffer := by
  unfold createTransport
  match b with
  | Option.none => exact ⟨rfl, rfl, rfl⟩
  | some buf =>
      dsimp only
      split
      · exact ⟨rfl, rfl, rfl⟩
      · exact ⟨rfl, rfl, rfl⟩

theorem createTransport_playing (st : AppState) (t : ℚ) (b : Option BufMeta)
    (opts : TransportOptions) (h : (createTransport st t b opts).2 = true) :
    (createTransport st t b opts).1.isPlaybackPlaying = true := by
  unfold createTransport at h ⊢
  match b with
  | Option.none => exact absurd h (by simp)
  | some buf =>
      dsimp only at h ⊢
      rcases Classical.em (¬st.audioContextReady ∨ buf.duration = 0) with hc | hc
      · rw [if_pos hc] at h
        exact absurd h (by simp)
      · rw [if_neg hc]

theorem startLoopTransport_loopfields (st : AppState) (t off : ℚ) :
    (startLoopTransport st t off).1.loopRegionStartSec = st.loopRegionStartSec
    ∧ (startLoopTransport st t off).1.loopRegionLengthSec = st.loopRegionLengthSec
    ∧ (startLoopTransport st t off).1.loopMixBuffer = st.loopMixBuffer := by
  unfold startLoopTransport
  cases hb : st.loopMixBuffer with
  | none => exact ⟨rfl, rfl, hb⟩
  | some buf =>
      dsimp only
      split
      · exact ⟨rfl, rfl, hb⟩
      · obtain ⟨c1, c2, c3⟩ := createTransport_loopfields st t (some buf)
          { clipId := Option.none,
            offset := modulo off
              (if st.loopRegionLengthSec ≠ 0 then st.loopRegionLengthSec
                else if buf.duration ≠ 0 then buf.duration else 1),
            loop := true, loopStart := 0, loopEnd := st.loopRegionLengthSec,
            baseStartSec := st.loopRegionStartSec.getD 0,
            mode := TransportMode.loop, preserveLoopingState := true }
        exact ⟨c1, c2, c3.trans hb⟩

theorem startLoopTransport_playing (st : AppState) (t off : ℚ) :
    (startLoopTransport st t off).2 = true →
    (startLoopTransport st t off).1.isPlaybackPlaying = true := by
  unfold startLoopTransport
  cases hb : st.loopMixBuffer with
  | none =>
      intro h
      exact absurd h (by simp)
  | some buf =>
      dsimp only
      rcases Classical.em (st.loopRegionLengthSec ≤ 0 ∨ st.loopRegionStartSec = Option.none)
        with hc | hc
      · rw [if_pos hc]
        intro h
        exact absurd h (by simp)
      · rw [if_neg hc]
        exact createTransport_playing _ _ _ _

/-- C7 (amended): `endLoop` is state-dependent.  With a pending start it
captures the clamped playhead as the loop end, throws without committing
anything when the region falls below the 0.05 s minimum, and otherwise
commits `{loopRegionStartSec, loopRegionLengthSec}` (the length carrying a
`toFixed(3)` rounding), stores the freshly built loop mix buffer, and — when
the loop transport starts — is playing.  With no pending start but looping
active it stops the loop and stashes the preserved offset in
`playbackPausedOffset`; it does **not** enter a paused state: the pause flag
is left as it was, and when the faded-out source's `onended` fires
(stop reason `endLoopStop`, not `pause`) the state ends not-paused with the
stashed offset wiped to `0` — contradicting the claimed "paused state at the
preserved offset". -/
theorem endLoop_behaviour_amended (st : AppState) (t t₂ : ℚ) :
    (∀ s s0 s1, st.loopSelectionStartSec = some s →
      getSessionRange st = some (s0, s1) →
      clamp (getLoopMarkerTimeSec st t) s0 s1 - s < MIN_LOOP_REGION_SECONDS →
      endLoop st t = (st, EndLoopOutcome.threw))
    ∧ (∀ s s0 s1, st.loopSelectionStartSec = some s →
      getSessionRange st = some (s0, s1) →
      ¬(clamp (getLoopMarkerTimeSec st t) s0 s1 - s < MIN_LOOP_REGION_SECONDS) →
      (endLoop st t).1.loopRegionStartSec = some s
      ∧ (endLoop st t).1.loopRegionLengthSec
          = jsToFixed 3 (clamp (getLoopMarkerTimeSec st t) s0 s1 - s)
      ∧ (endLoop st t).1.loopMixBuffer = buildLoopMixBuffer
          { stopTransport st StopReason.replace with
            loopRegionStartSec := some s,
            loopRegionLengthSec := jsToFixed 3 (clamp (getLoopMarkerTimeSec st t) s0 s1 - s),
            loopSelectionStartSec := Option.none }
      ∧ ((endLoop st t).2 = EndLoopOutcome.range s
            (jsToFixed 3 (s + jsToFixed 3 (clamp (getLoopMarkerTimeSec st t) s0 s1 - s)))
          ∧ (endLoop st t).1.isPlaybackPlaying = true
          ∨ (endLoop st t).2 = EndLoopOutcome.threw))
    ∧ (st.isLooping = true → st.loopSelectionStartSec = Option.none →
      (endLoop st t).2 = EndLoopOutcome.stop
      ∧ (endLoop st t).1.isLooping = false
      ∧ (endLoop st t).1.loopRegionStartSec = Option.none
      ∧ (endLoop st t).1.loopRegionLengthSec = 0
      ∧ (endLoop st t).1.playbackPausedOffset = currentPlaybackOffset st t
      ∧ (endLoop st t).1.isPlaybackPaused = st.isPlaybackPaused
      ∧ (st.playback.sourceActive = true →
          (transportOnEnded (endLoop st t).1 t₂).isPlaybackPaused = false
          ∧ (transportOnEnded (endLoop st t).1 t₂).playbackPausedOffset = 0)) := by
  refine ⟨?_, ?_, ?_⟩
  · intro s s0 s1 hsel hrange hshort
    unfold endLoop
    rw [if_neg (by simp [hsel]), hsel]
    dsimp only
    rw [hrange]
    dsimp only
    rw [if_pos hshort]
  · intro s s0 s1 hsel hrange hlong
    unfold endLoop
    rw [if_neg (by simp [hsel]), hsel]
    dsimp only
    rw [hrange]
    dsimp only
    rw [if_neg hlong]
    split
    · next hres =>
        refine ⟨?_, ?_, ?_, Or.inl ⟨rfl, ?_⟩⟩
        · dsimp only
          rw [(startLoopTransport_loopfields _ _ _).1]
        · dsimp only
          rw [(startLoopTransport_loopfields _ _ _).2.1]
        · dsimp only
          rw [(startLoopTransport_loopfields _ _ _).2.2]
        · exact startLoopTransport_playing _ _ _ hres
    · refine ⟨?_, ?_, ?_, Or.inr rfl⟩
      · dsimp only
        rw [(startLoopTransport_loopfields _ _ _).1]
      · dsimp only
        rw [(startLoopTransport_loopfields _ _ _).2.1]
      · dsimp only
        rw [(startLoopTransport_loopfields _ _ _).2.2]
  · intro hloop hsel
    unfold endLoop
    rw [if_pos ⟨hloop, hsel⟩]
    dsimp only
    refine ⟨rfl, rfl, rfl, rfl, rfl, ?_, ?_⟩
    · show (stopTransport st StopReason.endLoopStop).isPlaybackPaused = st.isPlaybackPaused
      unfold stopTransport
      split
      · rfl
      · rfl
    · intro hsrc
      have hstop : stopTransport st StopReason.endLoopStop
          = { st with
              playback := { st.playback with
                manualStopReason := StopReason.endLoopStop } } := by
        unfold stopTransport
        rw [if_neg (by simp [hsrc])]
      rw [hstop]
      unfold transportOnEnded
      rw [if_neg (by simp [hsrc])]
      dsimp only
      rw [if_neg (by decide)]
      exact ⟨rfl, rfl⟩

theorem eval_range_sel : getSessionRange stLoopSel = some (0, 1) := by
  norm_num [getSessionRange, getReadyClipsWithTime, stLoopSel, stPlay, readyClipD,
    initialState, minList, maxList, dec_lt_01, Option.some_ne_none]

theorem eval_marker_small : getLoopMarkerTimeSec stLoopSel (1 / 100) = 1 / 100 := by
  norm_num [getLoopMarkerTimeSec, currentPlaybackOffset, getClipById, stLoopSel, stPlay,
    initialState, clamp, max_def, min_def]

theorem eval_marker_late : getLoopMarkerTimeSec stLoopSel 2 = 1 := by
  norm_num [getLoopMarkerTimeSec, currentPlaybackOffset, getClipById, stLoopSel, stPlay,
    initialState, clamp, max_def, min_def]

/-- C7 witness: the three branches exercised concretely — a pending start
with the playhead 0.01 s in throws (region below the 0.05 s minimum); a
pending start with the playhead at 1 s commits the region; with looping
active and no pending start the command stops the loop, and after the
`onended` event the state is not paused with the offset wiped. -/
theorem endLoop_behaviour_amended_witness :
    endLoop stLoopSel (1 / 100) = (stLoopSel, EndLoopOutcome.threw)
    ∧ ((endLoop stLoopSel 2).1.loopRegionStartSec = some 0
        ∧ (endLoop stLoopSel 2).1.loopRegionLengthSec
            = jsToFixed 3 (clamp (getLoopMarkerTimeSec stLoopSel 2) 0 1 - 0)
        ∧ (endLoop stLoopSel 2).1.loopMixBuffer = buildLoopMixBuffer
            { stopTransport stLoopSel StopReason.replace with
              loopRegionStartSec := some 0,
              loopRegionLengthSec
                := jsToFixed 3 (clamp (getLoopMarkerTimeSec stLoopSel 2) 0 1 - 0),
              loopSelectionStartSec := Option.none }
        ∧ ((endLoop stLoopSel 2).2 = EndLoopOutcome.range 0
              (jsToFixed 3 (0 + jsToFixed 3 (clamp (getLoopMarkerTimeSec stLoopSel 2) 0 1 - 0)))
            ∧ (endLoop stLoopSel 2).1.isPlaybackPlaying = true
            ∨ (endLoop stLoopSel 2).2 = EndLoopOutcome.threw))
    ∧ (endLoop stLoopStop (1 / 2)).2 = EndLoopOutcome.stop
    ∧ (endLoop stLoopStop (1 / 2)).1.isLooping = false
    ∧ (endLoop stLoopStop (1 / 2)).1.playbackPausedOffset
        = currentPlaybackOffset stLoopStop (1 / 2)
    ∧ (transportOnEnded (endLoop stLoopStop (1 / 2)).1 1).isPlaybackPaused = false
    ∧ (transportOnEnded (endLoop stLoopStop (1 / 2)).1 1).playbackPausedOffset = 0 := by
  have h1 := (endLoop_behaviour_amended stLoopSel (1 / 100) 0).1 0 0 1 rfl
    eval_range_sel
    (by rw [eval_marker_small]; norm_num [clamp, max_def, min_def, MIN_LOOP_REGION_SECONDS])
  have h2 := (endLoop_behaviour_amended stLoopSel 2 0).2.1 0 0 1 rfl
    eval_range_sel
    (by rw [eval_marker_late]; norm_num [clamp, max_def, min_def, MIN_LOOP_REGION_SECONDS])
  have h3 := (endLoop_behaviour_amended stLoopStop (1 / 2) 1).2.2 rfl rfl
  exact ⟨h1, h2, h3.1, h3.2.1, h3.2.2.2.2.1,
    (h3.2.2.2.2.2.2 rfl).1, (h3.2.2.2.2.2.2 rfl).2⟩

theorem endLoopStop_ne_pause : (StopReason.endLoopStop = StopReason.pause) = False :=
  eq_false (by decide)

theorem evalEndLoopStop : endLoop stLoopStop (1 / 2) = (stLoopStopped, EndLoopOutcome.stop) := by
  norm_num [endLoop, stopTransport, currentPlaybackOffset, getClipById, stLoopStop,
    stLoopStopped, stPlay, initialState, modulo, jsRem, jsTrunc, clamp, max_def, min_def]

/-- C7 counterexample: stopping an active loop (no pending start) does
**not** return to a paused state at the preserved offset: right after the
command the pause flag is still off (offset `0.5` merely stashed), and once
the faded-out source's `onended` fires (reason `endLoopStop`, not `pause`)
the state is unpaused with the stashed offset reset to `0`. -/
theorem endLoop_stop_pause_counterexample :
    (endLoop stLoopStop (1 / 2)).2 = EndLoopOutcome.stop
    ∧ (endLoop stLoopStop (1 / 2)).1.isPlaybackPaused = false
    ∧ (endLoop stLoopStop (1 / 2)).1.playbackPausedOffset = 1 / 2
    ∧ (transportOnEnded (endLoop stLoopStop (1 / 2)).1 (1 / 2)).isPlaybackPaused = false
    ∧ (transportOnEnded (endLoop stLoopStop (1 / 2)).1 (1 / 2)).playbackPausedOffset = 0
    ∧ ((0 : ℚ) ≠ 1 / 2) := by
  rw [evalEndLoopStop]
  refine ⟨rfl, rfl, rfl, ?_, ?_, by norm_num⟩
  · norm_num [transportOnEnded, currentPlaybackOffset, getClipById, stLoopStopped,
      stLoopStop, stPlay, initialState, modulo, jsRem, jsTrunc, clamp, max_def, min_def,
      endLoopStop_ne_pause]
  · norm_num [transportOnEnded, currentPlaybackOffset, getClipById, stLoopStopped,
      stLoopStop, stPlay, initialState, modulo, jsRem, jsTrunc, clamp, max_def, min_def,
      endLoopStop_ne_pause]

end Engine

namespace MixerDelay

/-! ## Claim C6 — delay feedback ceiling -/

/-- C6 (amended): whenever the audio graph has been created (so the
`updateEffectsNodes` re-clamp runs, `ctxReady = true`), the stored delay
feedback after any command sequence is at most `0.65` with the advanced
clamp disabled and at most `0.75` with it enabled; and in every state,
`SET_DELAY_ADVANCED_CLAMP{enabled:false}` followed by
`SET_DELAY_FEEDBACK{value:80}` leaves the feedback at exactly `0.65`.
(Before `ENABLE_MIC` creates the audio graph, disabling the advanced clamp
does not re-clamp an already-stored `0.75` — see the counterexample.) -/
theorem delay_feedback_ceiling_amended :
    (∀ (d : DelayState) (cmds : List DelayCmd),
      0 ≤ d.feedback → d.feedback ≤ delayFeedbackMax d →
        ((runDelayActions true d cmds).advancedClamp = false →
            (runDelayActions true d cmds).feedback ≤ 13 / 20)
          ∧ ((runDelayActions true d cmds).advancedClamp = true →
            (runDelayActions true d cmds).feedback ≤ 3 / 4))
    ∧ ∀ (d : DelayState) (ctxReady : Bool),
        (runDelayActions ctxReady d
          [DelayCmd.setAdvancedClamp false, DelayCmd.setFeedback 80]).feedback = 13 / 20 := by
  constructor
  · intro d cmds h0 h1
    have hinv := runDelayActions_feedback_inv d cmds h0 h1
    constructor
    · intro hadv
      have := hinv.2
      unfold delayFeedbackMax at this
      rw [hadv] at this
      simpa using this
    · intro hadv
      have := hinv.2
      unfold delayFeedbackMax at this
      rw [hadv] at this
      calc (runDelayActions true d cmds).feedback ≤ _ := this
        _ ≤ 3 / 4 := by split <;> norm_num
  · intro d ctxReady
    cases ctxReady <;>
      · simp only [runDelayActions, List.foldl_cons, List.foldl_nil, dispatchDelayAction,
          updateEffectsNodesDelay, delayFeedbackMax]
        norm_num [clamp, min_def, max_def]

/-- C6 witness: the ceiling instantiated on a concrete command sequence
(enable the advanced clamp, request 70 %). -/
theorem delay_feedback_ceiling_witness :
    ((runDelayActions true initialDelayState
        [DelayCmd.setAdvancedClamp true, DelayCmd.setFeedback 70]).advancedClamp = false →
      (runDelayActions true initialDelayState
        [DelayCmd.setAdvancedClamp true, DelayCmd.setFeedback 70]).feedback ≤ 13 / 20)
    ∧ ((runDelayActions true initialDelayState
        [DelayCmd.setAdvancedClamp true, DelayCmd.setFeedback 70]).advancedClamp = true →
      (runDelayActions true initialDelayState
        [DelayCmd.setAdvancedClamp true, DelayCmd.setFeedback 70]).feedback ≤ 3 / 4) :=
  delay_feedback_ceiling_amended.1 initialDelayState
    [DelayCmd.setAdvancedClamp true, DelayCmd.setFeedback 70]
    (by norm_num [initialDelayState])
    (by norm_num [initialDelayState, delayFeedbackMax])

/-- C6 counterexample: with no audio graph yet (`ctxReady = false`), enabling
the advanced clamp, setting feedback 75 %, then disabling the clamp leaves
the stored feedback at `0.75` although the clamp is disabled — violating the
claimed unconditional `≤ 0.65` bound. -/
theorem delay_feedback_ceiling_counterexample :
    (runDelayActions false initialDelayState
        [DelayCmd.setAdvancedClamp true, DelayCmd.setFeedback 75,
          DelayCmd.setAdvancedClamp false]).advancedClamp = false
    ∧ (runDelayActions false initialDelayState
        [DelayCmd.setAdvancedClamp true, DelayCmd.setFeedback 75,
          DelayCmd.setAdvancedClamp false]).feedback = 3 / 4
    ∧ ¬((3 : ℚ) / 4 ≤ 13 / 20) := by
  refine ⟨rfl, ?_, by norm_num⟩
  simp only [runDelayActions, List.foldl_cons, List.foldl_nil, dispatchDelayAction,
    updateEffectsNodesDelay, delayFeedbackMax]
  norm_num [clamp, min_def, max_def]

end MixerDelay

namespace FX

/-! ## Claim C10 — echo/reverb bypass behaviour -/

/-- C10 (confirmed): with the effect disabled, `processEchoReverbBlock` is
not a bit-exact identity — every output sample equals the corresponding
(channel-duplicated) input sample clamped to `[-1, 1]`, with missing or
non-finite input samples replaced by `0`; in particular an out-of-range
input sample `2` comes out as `1`. -/
theorem echo_reverb_bypass_clamps (inputChannels : List (List (Option ℚ)))
    (channelCount frameCount ch i : ℕ) (v : ℚ) (hch : ch < channelCount) (hi : i < frameCount) :
    (-1 ≤ ((processEchoReverbBlockBypass inputChannels channelCount frameCount).getD ch
          []).getD i 0
      ∧ ((processEchoReverbBlockBypass inputChannels channelCount frameCount).getD ch
          []).getD i 0 ≤ 1)
    ∧ ((inputChannels.getD (min ch (inputChannels.length - 1)) []).getD i none = some v →
        -1 ≤ v → v ≤ 1 →
        ((processEchoReverbBlockBypass inputChannels channelCount frameCount).getD ch
          []).getD i 0 = v)
    ∧ ((inputChannels.getD (min ch (inputChannels.length - 1)) []).getD i none = none →
        ((processEchoReverbBlockBypass inputChannels channelCount frameCount).getD ch
          []).getD i 0 = 0)
    ∧ processEchoReverbBlockBypass [[some 2]] 1 1 = [[1]] := by
  rw [processEchoReverbBlockBypass_sample inputChannels channelCount frameCount ch i hch hi]
  unfold echoReverbInput
  dsimp only
  refine ⟨⟨?_, ?_⟩, ?_, ?_, ?_⟩
  · exact le_min (by norm_num) (le_max_left _ _)
  · exact clamp_le _ _ _
  · intro hin h1 h2
    rw [hin]
    exact clamp_of_mem _ _ _ h1 h2
  · intro hin
    rw [hin]
    exact clamp_of_mem _ _ _ (by norm_num [sampleOr0]) (by norm_num [sampleOr0])
  · unfold processEchoReverbBlockBypass echoReverbInput
    norm_num [List.range_succ, sampleOr0, clamp, min_def, max_def, List.getD]

/-- C10 witness: the characterization instantiated on a one-channel,
one-frame block holding the sample `1/2`. -/
theorem echo_reverb_bypass_clamps_witness :
    (-1 ≤ ((processEchoReverbBlockBypass [[some (1/2)]] 1 1).getD 0 []).getD 0 0
      ∧ ((processEchoReverbBlockBypass [[some (1/2)]] 1 1).getD 0 []).getD 0 0 ≤ 1)
    ∧ ((processEchoReverbBlockBypass [[some (1/2)]] 1 1).getD 0 []).getD 0 0 = 1 / 2 := by
  have h := echo_reverb_bypass_clamps [[some (1/2)]] 1 1 0 0 (1/2)
    (by norm_num) (by norm_num)
  refine ⟨h.1, ?_⟩
  exact h.2.1 (by simp [List.getD]) (by norm_num) (by norm_num)

end FX

end ListenHacks
